import Mathlib

/-!
Verification of the pyhd chart computation engine against its specification.

The development shallowly embeds the relevant parts of the source:
- `src/pyhd/constants/__init__.py` (the Catalog: Centers, Channels, Gates wheel
  table, Profiles, Orientations, Determinations, Environments),
- `src/pyhd/chart.py` (`Chart.authority`, `Chart.centers`, `Chart.channels`,
  `Chart.definitions`, `Chart.definition_type`, `Chart._is_simple_split`,
  `Chart.is_connected`, `Chart.type`, `Chart.bridging_gates`,
  `Chart.determination`, `Chart.environment`, `Chart.motivation`),
- `src/pyhd/activation.py` (`Activation._compute_data`, `_compute_position`),
- `src/pyhd/utils/swissephemeris.py` (`get_design_datetime`, `normalize_degrees`).

A chart is modelled by its activated-gate set (a `List Nat`), which is the
granularity at which the claims themselves are stated.  Python floats are
modelled as exact rationals; Python exceptions as `Except`; the external Swiss
Ephemeris longitude/speed oracle as an abstract `Ephemeris` record.
-/

namespace PyHD

/-- The 9 Centers (`Centers` in `constants/__init__.py`). -/
inductive Center where
  | root
  | splenic
  | sacral
  | solarPlexus
  | heart
  | g
  | throat
  | ajna
  | head
deriving DecidableEq, Repr

/-- The 9 Centers in the order produced by Python `sorted`.  `Centers` has no
`num` field, so `SuperEnum.__lt__` compares the `name` strings: "Ajna" < "G" <
"Head" < "Heart" < "Root" < "Sacral" < "Solar Plexus" < "Splenic" < "Throat". -/
def centersSorted : List Center :=
  [.ajna, .g, .head, .heart, .root, .sacral, .solarPlexus, .splenic, .throat]

theorem mem_centersSorted (c : Center) : c ∈ centersSorted := by
  cases c <;> decide

/-- One of the 36 Channels: its two Gates (by gate number) and its two Centers
(`Channels` in `constants/__init__.py`). -/
structure Channel where
  gate1 : Nat
  gate2 : Nat
  center1 : Center
  center2 : Center
deriving DecidableEq, Repr

/-- The 36 Channels, in source declaration order, with the `gates` and
`centers` columns of the `Channels` enum. -/
def channelList : List Channel := [
  ⟨1, 8, .g, .throat⟩,
  ⟨2, 14, .g, .sacral⟩,
  ⟨3, 60, .sacral, .root⟩,
  ⟨4, 63, .ajna, .head⟩,
  ⟨5, 15, .sacral, .g⟩,
  ⟨6, 59, .solarPlexus, .sacral⟩,
  ⟨7, 31, .g, .throat⟩,
  ⟨9, 52, .sacral, .root⟩,
  ⟨10, 20, .g, .throat⟩,
  ⟨10, 34, .g, .sacral⟩,
  ⟨10, 57, .g, .splenic⟩,
  ⟨11, 56, .ajna, .throat⟩,
  ⟨12, 22, .throat, .solarPlexus⟩,
  ⟨13, 33, .g, .throat⟩,
  ⟨16, 48, .throat, .splenic⟩,
  ⟨17, 62, .ajna, .throat⟩,
  ⟨18, 58, .splenic, .root⟩,
  ⟨19, 49, .root, .solarPlexus⟩,
  ⟨20, 34, .throat, .sacral⟩,
  ⟨20, 57, .throat, .splenic⟩,
  ⟨21, 45, .heart, .throat⟩,
  ⟨23, 43, .throat, .ajna⟩,
  ⟨24, 61, .ajna, .head⟩,
  ⟨25, 51, .g, .heart⟩,
  ⟨26, 44, .heart, .splenic⟩,
  ⟨27, 50, .sacral, .splenic⟩,
  ⟨28, 38, .splenic, .root⟩,
  ⟨29, 46, .sacral, .g⟩,
  ⟨30, 41, .solarPlexus, .root⟩,
  ⟨32, 54, .splenic, .root⟩,
  ⟨34, 57, .sacral, .splenic⟩,
  ⟨35, 36, .throat, .solarPlexus⟩,
  ⟨37, 40, .solarPlexus, .heart⟩,
  ⟨39, 55, .root, .solarPlexus⟩,
  ⟨42, 53, .sacral, .root⟩,
  ⟨47, 64, .ajna, .head⟩]

/-- `channel.gates` (the two-gate tuple of a Channel). -/
def Channel.gates (ch : Channel) : List Nat := [ch.gate1, ch.gate2]

/-- `channel.centers` (the two-center tuple of a Channel). -/
def Channel.centersList (ch : Channel) : List Center := [ch.center1, ch.center2]

/-- `Channels.harmonic_center`: the Center at the other end of the Channel.
The source first raises when `center` is not one of the Channel's two Centers;
every call site passes a Center of the Channel, so that guard is dead and is
not modelled.  Then: `self.centers[0] if self.centers[1] == center else
self.centers[1]`. -/
def harmonic_center (ch : Channel) (center : Center) : Center :=
  if ch.center2 = center then ch.center1 else ch.center2

/-- `Centers.channels`: the Channels incident to a Center
(`channel for channel in Channels if self in channel.centers`). -/
def center_channels (center : Center) : List Channel :=
  channelList.filter fun channel => decide (center ∈ channel.centersList)

/-- `Chart.channels`: the Defined Channels, i.e. the Channels both of whose
Gates are activated (`all((gate in self.gates) for gate in channel.gates)`).
The chart is represented by its activated-gate set `gs`. -/
def channels (gs : List Nat) : List Channel :=
  channelList.filter fun channel => decide (∀ gate ∈ channel.gates, gate ∈ gs)

/-- `Chart.centers`: the Defined Centers,
`sorted(set(center for channel in self.channels for center in channel.centers))`.
Collecting into a set and sorting by name is the same as filtering the full
name-sorted center list by incidence to a Defined Channel. -/
def centers (gs : List Nat) : List Center :=
  centersSorted.filter fun center =>
    decide (∃ channel ∈ channels gs, center ∈ channel.centersList)

/-- `Chart.has_center`. -/
def has_center (gs : List Nat) (center : Center) : Bool :=
  decide (center ∈ centers gs)

/-- `Chart.has_channel`. -/
def has_channel (gs : List Nat) (channel : Channel) : Bool :=
  decide (channel ∈ channels gs)

/-- `Chart.has_any_channel`. -/
def has_any_channel (gs : List Nat) (chs : List Channel) : Bool :=
  chs.any fun channel => has_channel gs channel

/-- `Channels.connecting_centers`: the Channels whose (unordered) Center pair
is `{center1, center2}` (`set(channel.centers) == {center1, center2}`). -/
def connecting_centers (center1 center2 : Center) : List Channel :=
  channelList.filter fun channel =>
    decide ((center1 ∈ channel.centersList ∧ center2 ∈ channel.centersList) ∧
            (channel.center1 = center1 ∨ channel.center1 = center2) ∧
            (channel.center2 = center1 ∨ channel.center2 = center2))

/-- The 8 Authorities (`Authorities` in `constants/__init__.py`). -/
inductive Authority where
  | solarPlexus
  | sacral
  | splenic
  | egoManifested
  | egoProjected
  | selfProjected
  | outerAuthority
  | lunar
deriving DecidableEq, Repr

/-- `Chart.authority`: the first-match decision chain of `chart.py`. -/
def authority (gs : List Nat) : Authority :=
  if (centers gs).length = 0 then .lunar
  else if has_center gs .solarPlexus then .solarPlexus
  else if has_center gs .sacral then .sacral
  else if has_center gs .splenic then .splenic
  else if has_any_channel gs (connecting_centers .heart .throat) then .egoManifested
  else if has_any_channel gs (connecting_centers .heart .g) then .egoProjected
  else if has_any_channel gs (connecting_centers .g .throat) then .selfProjected
  else .outerAuthority

/-- The adjacency generated by a channel set: `x` and `y` are connected by one
of the channels.  This is the edge relation that `Chart.definitions` builds in
its `graph` dict (`graph[c1].add(c2); graph[c2].add(c1)`). -/
def adjacent (chs : List Channel) (x y : Center) : Prop :=
  ∃ ch ∈ chs, (ch.center1 = x ∧ ch.center2 = y) ∨ (ch.center2 = x ∧ ch.center1 = y)

instance (chs : List Channel) (x y : Center) : Decidable (adjacent chs x y) := by
  unfold adjacent; infer_instance

/-- `graph[center]` of `Chart.definitions`: the neighbours of `center` under
the defined channels.  Python stores them in a `set`, whose iteration order is
unspecified; we enumerate them in `centersSorted` order (no claim depends on
the order inside a Definition). -/
def neighbors (chs : List Channel) (center : Center) : List Center :=
  centersSorted.filter fun other => decide (adjacent chs center other)

/-- The inner `while stack:` loop of `Chart.definitions`:

```
while stack:
    current = stack.pop()
    if current in visited:
        continue
    visited.add(current)
    if current not in group:
        group.append(current)
    stack.extend(graph[current] - visited)
```

Embedded with the head of the list as the top of the stack and a fuel
parameter; `dfsLoop_spec` shows that fuel `100` is never exhausted, so the
fuel-0 escape is dead code.  Returns the final `(visited, group)`. -/
def dfsLoop (chs : List Channel) : Nat → List Center → List Center → List Center →
    List Center × List Center
  | 0, _, visited, group => (visited, group)
  | _ + 1, [], visited, group => (visited, group)
  | fuel + 1, current :: stack, visited, group =>
    if current ∈ visited then
      dfsLoop chs fuel stack visited group
    else
      dfsLoop chs fuel
        (((neighbors chs current).filter fun c => decide (c ∉ current :: visited)) ++ stack)
        (current :: visited)
        (if current ∈ group then group else group ++ [current])

/-- The outer `for center in self.centers:` loop of `Chart.definitions`. -/
def outerLoop (chs : List Channel) : List Center → List Center → List (List Center) →
    List (List Center)
  | [], _, groups => groups
  | center :: rest, visited, groups =>
    if center ∈ visited then
      outerLoop chs rest visited groups
    else
      let result := dfsLoop chs 100 [center] visited []
      outerLoop chs rest result.1 (groups ++ [result.2])

/-- `Chart.definitions`: the connected components ("Definitions") of the graph
whose nodes are the Defined Centers and whose edges are the Defined Channels,
computed by iterative DFS exactly as in the source. -/
def definitions (gs : List Nat) : List (List Center) :=
  if centers gs = [] then []
  else outerLoop (channels gs) (centers gs) [] []

def numDefinitionsMsg : String := "Invalid number of Definitions (not in 0-4)."

def splitOnlyMsg : String := "This can only be called for Split Definitions."

def tupleNotCallableMsg : String :=
  "TypeError: tuple object is not callable"

/-- `Chart.is_connected(center, target_centers)`.  The source returns `False`
when `center` is undefined, then filters the targets down to defined Centers
and returns `False` when none remain; after that it executes
`for definition in self.definitions():` — but `definitions` is a
`cached_property` holding a tuple, so the call expression raises
`TypeError: 'tuple' object is not callable`.  The raise is modelled as
`Except.error`. -/
def is_connected (gs : List Nat) (center : Center) (target_centers : List Center) :
    Except String Bool :=
  if center ∉ centers gs then .ok false
  else
    let targets := target_centers.filter fun c => decide (c ∈ centers gs)
    if targets = [] then .ok false
    else .error tupleNotCallableMsg

/-- Modelled from the spec (claim C2 and spec section 4.4): `isConnected` is
false if `center` is undefined, else true iff `center` and at least one defined
member of `target_centers` share the same Definition.  This is the intended
behaviour of `Chart.is_connected`, for comparison with the code. -/
def is_connected_spec (gs : List Nat) (center : Center) (target_centers : List Center) :
    Bool :=
  decide (center ∈ centers gs ∧
    ∃ t ∈ target_centers, t ∈ centers gs ∧ ∃ d ∈ definitions gs, center ∈ d ∧ t ∈ d)

/-- `NON_SACRAL_MOTOR_CENTERS` from `constants/__init__.py`. -/
def NON_SACRAL_MOTOR_CENTERS : List Center := [.root, .solarPlexus, .heart]

/-- `MOTOR_CENTERS` from `constants/__init__.py`. -/
def MOTOR_CENTERS : List Center := [.root, .sacral, .solarPlexus, .heart]

/-- `CLASSIC_PROJECTOR_CENTERS` from `constants/__init__.py`. -/
def CLASSIC_PROJECTOR_CENTERS : List Center := [.splenic, .g]

/-- `MENTAL_PROJECTOR_CENTERS` from `constants/__init__.py`. -/
def MENTAL_PROJECTOR_CENTERS : List Center := [.throat, .ajna, .head]

/-- The Types returned by `Chart.type` (subtypes only; the overarching
`GENERATOR`/`PROJECTOR` members are never returned by the classifier). -/
inductive ChartType where
  | manifestor
  | pureGenerator
  | manifestingGenerator
  | energyProjector
  | classicProjector
  | mentalProjector
  | reflector
deriving DecidableEq, Repr

/-- `Chart.type` as written in the source:

- `if self.num_centers == 0: return Types.REFLECTOR`;
- `has_throat_connection = self.is_connected(...)` — may raise (see
  `is_connected`);
- the Generator and Manifestor branches as in the source;
- then `if self.has_motor:` — `has_motor` is a *method* and is not called, so
  the condition is a bound-method object, which is always truthy in Python.
  The branch is therefore always taken and every remaining chart is classified
  `ENERGY_PROJECTOR`; the Classic/Mental Projector branches and the final
  `raise ValueError` are unreachable and have no counterpart here.  (They
  would also misbehave: `other_defined_centers` is a generator object, so
  `if not other_defined_centers:` is always false.) -/
def chart_type (gs : List Nat) : Except String ChartType :=
  if (centers gs).length = 0 then .ok .reflector
  else
    match is_connected gs .throat NON_SACRAL_MOTOR_CENTERS with
    | .error e => .error e
    | .ok has_throat_connection =>
      if has_center gs .sacral then
        if has_throat_connection then .ok .manifestingGenerator
        else .ok .pureGenerator
      else if has_throat_connection then .ok .manifestor
      else .ok .energyProjector

def typeNotIdentifiedMsg : String := "Type cannot be identified."

/-- Modelled from the spec (claim C1's decision tree, which matches the
docstring of `Chart.type`): the intended Type classifier, for comparison with
the code. -/
def chart_type_spec (gs : List Nat) : Except String ChartType :=
  if (centers gs).length = 0 then .ok .reflector
  else
    let throatConnected := is_connected_spec gs .throat NON_SACRAL_MOTOR_CENTERS
    if has_center gs .sacral then
      if throatConnected then .ok .manifestingGenerator else .ok .pureGenerator
    else if throatConnected then .ok .manifestor
    else if MOTOR_CENTERS.any fun c => has_center gs c then .ok .energyProjector
    else if (centers gs).all fun c => decide (c ∈ CLASSIC_PROJECTOR_CENTERS) then
      .ok .classicProjector
    else if (centers gs).all fun c => decide (c ∈ MENTAL_PROJECTOR_CENTERS) then
      .ok .mentalProjector
    else .error typeNotIdentifiedMsg

/-- The 6 Definition Types (`DefinitionTypes` in `constants/__init__.py`). -/
inductive DefinitionType where
  | no
  | single
  | simpleSplit
  | wideSplit
  | tripleSplit
  | quadrupleSplit
deriving DecidableEq, Repr

/-- `Chart._is_simple_split`.  The source raises when the number of
Definitions is not 2, then destructures `definition1, definition2 =
self.definitions` and loops:

```
for center in definition1:
    for channel in center.channels:
        if channel in self.channels: continue
        harmonic_center = channel.harmonic_center(center)
        if harmonic_center in definition1: continue
        if harmonic_center in definition2: return True
return False
```
-/
def _is_simple_split (gs : List Nat) : Except String Bool :=
  match definitions gs with
  | [definition1, definition2] =>
    .ok (definition1.any fun center =>
      (center_channels center).any fun channel =>
        decide (channel ∉ channels gs ∧
          harmonic_center channel center ∉ definition1 ∧
          harmonic_center channel center ∈ definition2))
  | _ => .error splitOnlyMsg

/-- `Chart.definition_type`: `match self.num_definitions: case 0..4`, with the
trailing `raise Exception` for any other count. -/
def definition_type (gs : List Nat) : Except String DefinitionType :=
  match (definitions gs).length with
  | 0 => .ok .no
  | 1 => .ok .single
  | 2 =>
    match _is_simple_split gs with
    | .ok true => .ok .simpleSplit
    | .ok false => .ok .wideSplit
    | .error e => .error e
  | 3 => .ok .tripleSplit
  | 4 => .ok .quadrupleSplit
  | _ => .error numDefinitionsMsg

theorem centersSorted_nodup : centersSorted.Nodup := by decide

theorem adjacent_symm {chs : List Channel} {x y : Center} (h : adjacent chs x y) :
    adjacent chs y x := by
  obtain ⟨ch, hch, h | h⟩ := h
  · exact ⟨ch, hch, Or.inr ⟨h.2, h.1⟩⟩
  · exact ⟨ch, hch, Or.inl ⟨h.2, h.1⟩⟩

theorem mem_neighbors {chs : List Channel} {x y : Center} :
    y ∈ neighbors chs x ↔ adjacent chs x y := by
  simp [neighbors, List.mem_filter, mem_centersSorted y]

/-- The number of centers of the 9-center universe not yet visited; the
decreasing measure of the DFS. -/
def unvisitedCount (visited : List Center) : Nat :=
  (centersSorted.filter fun c => decide (c ∉ visited)).length

theorem length_filter_not_mem_cons {visited : List Center} {a : Center}
    (hav : a ∉ visited) :
    ∀ {l : List Center}, l.Nodup → a ∈ l →
      (l.filter fun c => decide (c ∉ a :: visited)).length + 1
        = (l.filter fun c => decide (c ∉ visited)).length := by
  intro l
  induction l with
  | nil => intro _ hal; cases hal
  | cons h t iht =>
    intro hnd hal
    rcases List.mem_cons.mp hal with rfl | hat
    · have hant : a ∉ t := (List.nodup_cons.mp hnd).1
      have hsame : (t.filter fun c => decide (c ∉ a :: visited))
          = t.filter fun c => decide (c ∉ visited) := by
        apply List.filter_congr
        intro c hc
        have hca : c ≠ a := fun e => hant (e ▸ hc)
        simp [List.mem_cons, hca]
      rw [List.filter_cons, List.filter_cons]
      have h1 : (decide (a ∉ a :: visited)) = false := by simp
      have h2 : (decide (a ∉ visited)) = true := by simpa using hav
      rw [h1, h2, hsame]
      simp
    · have hha : h ≠ a := by
        rintro rfl
        exact (List.nodup_cons.mp hnd).1 hat
      have hcond : (decide (h ∉ a :: visited)) = decide (h ∉ visited) := by
        simp [List.mem_cons, hha]
      rw [List.filter_cons, List.filter_cons, hcond]
      have ih := iht (List.nodup_cons.mp hnd).2 hat
      by_cases hh : h ∉ visited
      · rw [if_pos (by simpa using hh), if_pos (by simpa using hh)]
        simpa using ih
      · rw [if_neg (by simpa using hh), if_neg (by simpa using hh)]
        exact ih

theorem unvisitedCount_cons {visited : List Center} {a : Center} (hav : a ∉ visited) :
    unvisitedCount (a :: visited) + 1 = unvisitedCount visited :=
  length_filter_not_mem_cons hav centersSorted_nodup (mem_centersSorted a)

theorem unvisitedCount_le (visited : List Center) : unvisitedCount visited ≤ 9 :=
  Nat.le_trans (List.length_filter_le _ _) (by decide)

/-- Full characterisation of the inner DFS loop: with sufficient fuel, the
loop visits a set `fresh` of previously unvisited centers, appends it to the
group, empties the stack into the visited set, and leaves every neighbour of a
freshly visited center visited; every fresh center is either an initial stack
element or adjacent to another fresh center. -/
theorem dfsLoop_spec (chs : List Channel) :
    ∀ (fuel : Nat) (stack visited group : List Center),
    stack.length + 10 * unvisitedCount visited ≤ fuel →
    (∀ x ∈ group, x ∈ visited) →
    ∃ fresh : List Center,
      (dfsLoop chs fuel stack visited group).2 = group ++ fresh ∧
      (∀ x, x ∈ (dfsLoop chs fuel stack visited group).1 ↔ (x ∈ visited ∨ x ∈ fresh)) ∧
      fresh.Nodup ∧
      (∀ x ∈ fresh, x ∉ visited) ∧
      (∀ x ∈ fresh, x ∈ stack ∨ ∃ y ∈ fresh, adjacent chs y x) ∧
      (∀ x ∈ fresh, ∀ y, adjacent chs x y → y ∈ (dfsLoop chs fuel stack visited group).1) ∧
      (∀ s ∈ stack, s ∈ (dfsLoop chs fuel stack visited group).1) := by
  intro fuel
  induction fuel with
  | zero =>
    intro stack visited group hfuel hgv
    have hstack : stack = [] := List.length_eq_zero.mp (by omega)
    subst hstack
    exact ⟨[], by simp [dfsLoop], by simp [dfsLoop], List.nodup_nil,
      by simp, by simp, by simp, by simp⟩
  | succ fuel ih =>
    intro stack visited group hfuel hgv
    rcases stack with _ | ⟨current, stack⟩
    · exact ⟨[], by simp [dfsLoop], by simp [dfsLoop], List.nodup_nil,
        by simp, by simp, by simp, by simp⟩
    by_cases hcv : current ∈ visited
    · have heq : dfsLoop chs (fuel + 1) (current :: stack) visited group
          = dfsLoop chs fuel stack visited group := by
        simp [dfsLoop, hcv]
      have hfuel' : stack.length + 10 * unvisitedCount visited ≤ fuel := by
        simp only [List.length_cons] at hfuel; omega
      obtain ⟨fresh, h1, h2, h3, h4, h5, h6, h7⟩ := ih stack visited group hfuel' hgv
      refine ⟨fresh, by rw [heq]; exact h1, by rw [heq]; exact h2, h3, h4, ?_,
        by rw [heq]; exact h6, ?_⟩
      · intro x hx
        rcases h5 x hx with h | h
        · exact Or.inl (List.mem_cons_of_mem _ h)
        · exact Or.inr h
      · intro s hs
        rw [heq]
        rcases List.mem_cons.mp hs with rfl | hs
        · exact (h2 s).mpr (Or.inl hcv)
        · exact h7 s hs
    · have hcg : current ∉ group := fun h => hcv (hgv _ h)
      have heq : dfsLoop chs (fuel + 1) (current :: stack) visited group
          = dfsLoop chs fuel
              (((neighbors chs current).filter fun c => decide (c ∉ current :: visited)) ++ stack)
              (current :: visited) (group ++ [current]) := by
        simp [dfsLoop, hcv, hcg]
      have hcount := unvisitedCount_cons hcv
      have hflen : ((neighbors chs current).filter fun c =>
          decide (c ∉ current :: visited)).length ≤ 9 := by
        refine Nat.le_trans (List.length_filter_le _ _) ?_
        exact Nat.le_trans (List.length_filter_le _ _) (by decide)
      have hfuel' : (((neighbors chs current).filter fun c =>
            decide (c ∉ current :: visited)) ++ stack).length
            + 10 * unvisitedCount (current :: visited) ≤ fuel := by
        rw [List.length_append]
        simp only [List.length_cons] at hfuel
        omega
      have hgv' : ∀ x ∈ group ++ [current], x ∈ current :: visited := by
        intro x hx
        rcases List.mem_append.mp hx with h | h
        · exact List.mem_cons_of_mem _ (hgv _ h)
        · simp only [List.mem_singleton] at h
          exact h ▸ List.mem_cons_self _ _
      obtain ⟨fresh, h1, h2, h3, h4, h5, h6, h7⟩ :=
        ih _ (current :: visited) (group ++ [current]) hfuel' hgv'
      have hcf : current ∉ fresh := fun h => (h4 current h) (List.mem_cons_self _ _)
      refine ⟨current :: fresh, ?_, ?_, ?_, ?_, ?_, ?_, ?_⟩
      · rw [heq, h1, List.append_assoc]; rfl
      · intro x
        rw [heq, h2 x]
        simp only [List.mem_cons]
        tauto
      · exact List.nodup_cons.mpr ⟨hcf, h3⟩
      · intro x hx
        rcases List.mem_cons.mp hx with rfl | hx
        · exact hcv
        · intro hxv
          exact h4 x hx (List.mem_cons_of_mem _ hxv)
      · intro x hx
        rcases List.mem_cons.mp hx with rfl | hx
        · exact Or.inl (List.mem_cons_self _ _)
        · rcases h5 x hx with hmem | ⟨y, hy, hadj⟩
          · rcases List.mem_append.mp hmem with hf | hs
            · have hadj : adjacent chs current x :=
                mem_neighbors.mp (List.mem_of_mem_filter hf)
              exact Or.inr ⟨current, List.mem_cons_self _ _, hadj⟩
            · exact Or.inl (List.mem_cons_of_mem _ hs)
          · exact Or.inr ⟨y, List.mem_cons_of_mem _ hy, hadj⟩
      · intro x hx y hadj
        rw [heq]
        rcases List.mem_cons.mp hx with heqx | hx
        · rw [heqx] at hadj
          by_cases hyv : y ∈ current :: visited
          · exact (h2 y).mpr (Or.inl hyv)
          · have hyn : y ∈ (neighbors chs current).filter fun c =>
                decide (c ∉ current :: visited) := by
              refine List.mem_filter.mpr ⟨mem_neighbors.mpr hadj, by simpa using hyv⟩
            exact h7 y (List.mem_append.mpr (Or.inl hyn))

        · exact h6 x hx y hadj
      · intro s hs
        rw [heq]
        rcases List.mem_cons.mp hs with rfl | hs
        · exact (h2 s).mpr (Or.inl (List.mem_cons_self _ _))
        · exact h7 s (List.mem_append.mpr (Or.inr hs))

/-- Full characterisation of the outer loop of `Chart.definitions`: starting
from invariants on `(visited, groups)`, the final group list extends `groups`,
covers `rest`, consists of nonempty duplicate-free pairwise-disjoint groups,
each closed under the channel adjacency, and contains only centers that were
already visited, are in `rest`, or are endpoints of a channel. -/
theorem outerLoop_spec (chs : List Channel) :
    ∀ (rest visited : List Center) (groups : List (List Center)),
    (∀ x, x ∈ visited ↔ ∃ d ∈ groups, x ∈ d) →
    (∀ d ∈ groups, d ≠ [] ∧ d.Nodup) →
    groups.Pairwise (fun d1 d2 => ∀ x, x ∈ d1 → x ∉ d2) →
    (∀ d ∈ groups, ∀ x ∈ d, ∀ y, adjacent chs x y → y ∈ d) →
    (∀ d ∈ groups, d ∈ outerLoop chs rest visited groups) ∧
    (∀ c ∈ rest, ∃ d ∈ outerLoop chs rest visited groups, c ∈ d) ∧
    (∀ d ∈ outerLoop chs rest visited groups, d ≠ [] ∧ d.Nodup) ∧
    (outerLoop chs rest visited groups).Pairwise (fun d1 d2 => ∀ x, x ∈ d1 → x ∉ d2) ∧
    (∀ d ∈ outerLoop chs rest visited groups, ∀ x ∈ d, ∀ y, adjacent chs x y → y ∈ d) ∧
    (∀ d ∈ outerLoop chs rest visited groups, ∀ x ∈ d,
      (∃ d0 ∈ groups, x ∈ d0) ∨ x ∈ rest ∨ ∃ y, adjacent chs y x) := by
  intro rest
  induction rest with
  | nil =>
    intro visited groups inv1 inv2 inv3 inv4
    refine ⟨fun d hd => hd, by simp, inv2, inv3, inv4, ?_⟩
    intro d hd x hx
    exact Or.inl ⟨d, hd, hx⟩
  | cons c rest ihr =>
    intro visited groups inv1 inv2 inv3 inv4
    by_cases hcv : c ∈ visited
    · have heq : outerLoop chs (c :: rest) visited groups
          = outerLoop chs rest visited groups := by
        simp [outerLoop, hcv]
      obtain ⟨g1, g2, g3, g4, g5, g6⟩ := ihr visited groups inv1 inv2 inv3 inv4
      rw [heq]
      refine ⟨g1, ?_, g3, g4, g5, ?_⟩
      · intro x hx
        rcases List.mem_cons.mp hx with rfl | hx
        · obtain ⟨d, hd, hxd⟩ := (inv1 x).mp hcv
          exact ⟨d, g1 d hd, hxd⟩
        · exact g2 x hx
      · intro d hd x hx
        rcases g6 d hd x hx with h | h | h
        · exact Or.inl h
        · exact Or.inr (Or.inl (List.mem_cons_of_mem _ h))
        · exact Or.inr (Or.inr h)
    · have heq : outerLoop chs (c :: rest) visited groups
          = outerLoop chs rest (dfsLoop chs 100 [c] visited []).1
              (groups ++ [(dfsLoop chs 100 [c] visited []).2]) := by
        simp [outerLoop, hcv]
      have hfuel : ([c] : List Center).length + 10 * unvisitedCount visited ≤ 100 := by
        have := unvisitedCount_le visited
        simp only [List.length_singleton]
        omega
      obtain ⟨fresh, d1, d2, d3, d4, d5, d6, d7⟩ :=
        dfsLoop_spec chs 100 [c] visited [] hfuel (by simp)
      rw [List.nil_append] at d1
      -- the new group is exactly `fresh` and contains `c`
      have hcfresh : c ∈ fresh := by
        have := d7 c (List.mem_cons_self _ _)
        rcases (d2 c).mp this with h | h
        · exact absurd h hcv
        · exact h
      -- invariants for the recursive call
      have inv1' : ∀ x, x ∈ (dfsLoop chs 100 [c] visited []).1 ↔
          ∃ d ∈ groups ++ [(dfsLoop chs 100 [c] visited []).2], x ∈ d := by
        intro x
        rw [d2 x, d1]
        constructor
        · rintro (h | h)
          · obtain ⟨d, hd, hxd⟩ := (inv1 x).mp h
            exact ⟨d, List.mem_append.mpr (Or.inl hd), hxd⟩
          · exact ⟨fresh, List.mem_append.mpr (Or.inr (by simp)), h⟩
        · rintro ⟨d, hd, hxd⟩
          rcases List.mem_append.mp hd with hd | hd
          · exact Or.inl ((inv1 x).mpr ⟨d, hd, hxd⟩)
          · simp only [List.mem_singleton] at hd
            rw [hd] at hxd
            exact Or.inr hxd
      have inv2' : ∀ d ∈ groups ++ [(dfsLoop chs 100 [c] visited []).2],
          d ≠ [] ∧ d.Nodup := by
        intro d hd
        rcases List.mem_append.mp hd with hd | hd
        · exact inv2 d hd
        · simp only [List.mem_singleton] at hd
          rw [hd, d1]
          exact ⟨fun h => by simp [h] at hcfresh, d3⟩
      have hdisj : ∀ d ∈ groups, ∀ x, x ∈ d → x ∉ fresh := by
        intro d hd x hxd hxf
        exact d4 x hxf ((inv1 x).mpr ⟨d, hd, hxd⟩)
      have inv3' : (groups ++ [(dfsLoop chs 100 [c] visited []).2]).Pairwise
          (fun d1 d2 => ∀ x, x ∈ d1 → x ∉ d2) := by
        rw [List.pairwise_append]
        refine ⟨inv3, List.pairwise_singleton _ _, ?_⟩
        intro d hd d' hd' x hxd
        simp only [List.mem_singleton] at hd'
        rw [hd', d1]
        exact hdisj d hd x hxd
      have inv4' : ∀ d ∈ groups ++ [(dfsLoop chs 100 [c] visited []).2],
          ∀ x ∈ d, ∀ y, adjacent chs x y → y ∈ d := by
        intro d hd x hxd y hadj
        rcases List.mem_append.mp hd with hd | hd
        · exact inv4 d hd x hxd y hadj
        · simp only [List.mem_singleton] at hd
          subst hd
          rw [d1] at hxd ⊢
          have hy := d6 x hxd y hadj
          rcases (d2 y).mp hy with hyv | hyf
          · -- y was already visited: then y is in an old, closed group, and by
            -- symmetry x would be too, contradicting x ∈ fresh
            obtain ⟨d0, hd0, hyd0⟩ := (inv1 y).mp hyv
            have hx0 : x ∈ d0 := inv4 d0 hd0 y hyd0 x (adjacent_symm hadj)
            exact absurd ((inv1 x).mpr ⟨d0, hd0, hx0⟩) (d4 x hxd)
          · exact hyf
      obtain ⟨g1, g2, g3, g4, g5, g6⟩ := ihr _ _ inv1' inv2' inv3' inv4'
      rw [heq]
      refine ⟨?_, ?_, g3, g4, g5, ?_⟩
      · intro d hd
        exact g1 d (List.mem_append.mpr (Or.inl hd))
      · intro x hx
        rcases List.mem_cons.mp hx with heqx | hx
        · refine ⟨(dfsLoop chs 100 [c] visited []).2,
            g1 _ (List.mem_append.mpr (Or.inr (by simp))), ?_⟩
          rw [d1, heqx]
          exact hcfresh
        · exact g2 x hx
      · intro d hd x hx
        rcases g6 d hd x hx with h | h | h
        · obtain ⟨d0, hd0, hxd0⟩ := h
          rcases List.mem_append.mp hd0 with hd0 | hd0
          · exact Or.inl ⟨d0, hd0, hxd0⟩
          · simp only [List.mem_singleton] at hd0
            rw [hd0, d1] at hxd0
            rcases d5 x hxd0 with hxc | ⟨y, _, hadj⟩
            · simp only [List.mem_singleton] at hxc
              exact Or.inr (Or.inl (hxc ▸ List.mem_cons_self _ _))
            · exact Or.inr (Or.inr ⟨y, hadj⟩)
        · exact Or.inr (Or.inl (List.mem_cons_of_mem _ h))
        · exact Or.inr (Or.inr h)

theorem mem_channels {gs : List Nat} {ch : Channel} :
    ch ∈ channels gs ↔ ch ∈ channelList ∧ ch.gate1 ∈ gs ∧ ch.gate2 ∈ gs := by
  simp [channels, List.mem_filter, Channel.gates]

theorem mem_centers {gs : List Nat} {c : Center} :
    c ∈ centers gs ↔ ∃ ch ∈ channels gs, c = ch.center1 ∨ c = ch.center2 := by
  simp [centers, List.mem_filter, mem_centersSorted c, Channel.centersList]

theorem adjacent_mem_centers {gs : List Nat} {x y : Center}
    (h : adjacent (channels gs) x y) : y ∈ centers gs := by
  obtain ⟨ch, hch, h | h⟩ := h
  · exact mem_centers.mpr ⟨ch, hch, Or.inr h.2.symm⟩
  · exact mem_centers.mpr ⟨ch, hch, Or.inl h.2.symm⟩

/-- Bundle of structural properties of `Chart.definitions`, obtained by
instantiating `outerLoop_spec` with the empty initial state. -/
theorem definitions_props (gs : List Nat) :
    (∀ c ∈ centers gs, ∃ d ∈ definitions gs, c ∈ d) ∧
    (∀ d ∈ definitions gs, d ≠ [] ∧ d.Nodup) ∧
    (definitions gs).Pairwise (fun d1 d2 => ∀ x, x ∈ d1 → x ∉ d2) ∧
    (∀ d ∈ definitions gs, ∀ x ∈ d, ∀ y, adjacent (channels gs) x y → y ∈ d) ∧
    (∀ d ∈ definitions gs, ∀ x ∈ d, x ∈ centers gs) := by
  by_cases hc : centers gs = []
  · rw [definitions, if_pos hc]
    refine ⟨?_, by simp, by simp, by simp, by simp⟩
    intro c hcc
    rw [hc] at hcc
    cases hcc
  · have heq : definitions gs = outerLoop (channels gs) (centers gs) [] [] := by
      rw [definitions, if_neg hc]
    obtain ⟨g1, g2, g3, g4, g5, g6⟩ :=
      outerLoop_spec (channels gs) (centers gs) [] []
        (by simp) (by simp) (by simp) (by simp)
    rw [heq]
    refine ⟨g2, g3, g4, g5, ?_⟩
    intro d hd x hx
    rcases g6 d hd x hx with ⟨d0, hd0, _⟩ | h | ⟨y, hadj⟩
    · cases hd0
    · exact h
    · exact adjacent_mem_centers hadj

theorem centers_nodup (gs : List Nat) : (centers gs).Nodup :=
  List.Nodup.filter _ centersSorted_nodup

theorem definitions_flatten_length (gs : List Nat) :
    ((definitions gs).map List.length).sum = (centers gs).length := by
  obtain ⟨g1, g2, g3, _, g5⟩ := definitions_props gs
  have hflat : (definitions gs).flatten.Nodup := by
    rw [List.nodup_flatten]
    refine ⟨fun d hd => (g2 d hd).2, ?_⟩
    refine g3.imp ?_
    intro d1 d2 h
    intro a ha1 ha2
    exact h a ha1 ha2
  have hmem : ∀ x, x ∈ (definitions gs).flatten ↔ x ∈ centers gs := by
    intro x
    rw [List.mem_flatten]
    constructor
    · rintro ⟨d, hd, hxd⟩
      exact g5 d hd x hxd
    · intro hx
      exact g1 x hx
  have hperm : (definitions gs).flatten.Perm (centers gs) := by
    refine List.perm_of_nodup_nodup_toFinset_eq hflat (centers_nodup gs) ?_
    ext x
    simp only [List.mem_toFinset]
    exact hmem x
  calc ((definitions gs).map List.length).sum
      = (definitions gs).flatten.length := (List.length_flatten _).symm
    _ = (centers gs).length := hperm.length_eq

/-- C5: the tuple returned by `Chart.definitions` is a partition of the
Defined-Centers set — every Defined Center belongs to exactly one Definition
(membership equivalence together with pairwise disjointness), the sum of the
Definition sizes equals the number of Defined Centers, and the two Centers of
every Defined Channel lie in the same Definition. -/
theorem definitions_partition (gs : List Nat) :
    (∀ c, c ∈ centers gs ↔ ∃ d ∈ definitions gs, c ∈ d) ∧
    (definitions gs).Pairwise (fun d1 d2 => ∀ x, x ∈ d1 → x ∉ d2) ∧
    ((definitions gs).map List.length).sum = (centers gs).length ∧
    (∀ ch ∈ channels gs, ∃ d ∈ definitions gs, ch.center1 ∈ d ∧ ch.center2 ∈ d) := by
  obtain ⟨g1, g2, g3, g4, g5⟩ := definitions_props gs
  refine ⟨?_, g3, definitions_flatten_length gs, ?_⟩
  · intro c
    constructor
    · exact g1 c
    · rintro ⟨d, hd, hcd⟩
      exact g5 d hd c hcd
  · intro ch hch
    have h1 : ch.center1 ∈ centers gs := mem_centers.mpr ⟨ch, hch, Or.inl rfl⟩
    obtain ⟨d, hd, hmem⟩ := g1 _ h1
    have hadj : adjacent (channels gs) ch.center1 ch.center2 := ⟨ch, hch, Or.inl ⟨rfl, rfl⟩⟩
    exact ⟨d, hd, hmem, g4 d hd _ hmem _ hadj⟩

/-- Witness for C5 at the concrete chart with activated gates 21 and 45: the
two Centers of the Defined Channel 21-45 lie in one Definition. -/
theorem definitions_partition_witness :
    ∃ d ∈ definitions [21, 45], Center.heart ∈ d ∧ Center.throat ∈ d :=
  (definitions_partition [21, 45]).2.2.2 ⟨21, 45, .heart, .throat⟩ (by decide)

/-- C2 (code bug): on the chart with activated gates 21 and 45 (Defined
Centers: Heart and Throat), `Chart.is_connected(Throat, NON_SACRAL_MOTOR_CENTERS)`
raises `TypeError` — `self.definitions()` calls the tuple held by the
`definitions` cached property — whereas the claim says it returns a boolean
(here `True`, since Throat and the defined target Heart share the single
Definition, as `is_connected_spec` computes). -/
theorem is_connected_bug :
    is_connected [21, 45] .throat NON_SACRAL_MOTOR_CENTERS = .error tupleNotCallableMsg ∧
    is_connected_spec [21, 45] .throat NON_SACRAL_MOTOR_CENTERS = true :=
  ⟨rfl, by decide⟩

/-- C1 (code bug): on the chart with activated gates 10 and 57 (Defined
Centers: G and Splenic — no motor Center), the claim's decision tree yields
Classic Projector (`chart_type_spec`), but `Chart.type` returns Energy
Projector because `if self.has_motor:` tests the uncalled bound method, which
is always truthy. -/
theorem chart_type_bug :
    chart_type [10, 57] = .ok .energyProjector ∧
    chart_type_spec [10, 57] = .ok .classicProjector :=
  ⟨rfl, rfl⟩

/-- The claim's direct-bridge condition for a two-Definition chart: some
Center of the first Definition has an incident Undefined Channel whose
harmonic Center lies in the second Definition. -/
def bridge_exists (gs : List Nat) : Prop :=
  ∃ d1 d2, definitions gs = [d1, d2] ∧
    ∃ center ∈ d1, ∃ channel ∈ center_channels center,
      channel ∉ channels gs ∧ harmonic_center channel center ∈ d2

theorem is_simple_split_iff {gs : List Nat} {d1 d2 : List Center}
    (h : definitions gs = [d1, d2]) :
    _is_simple_split gs = .ok true ↔ bridge_exists gs := by
  have hdisj : ∀ x ∈ d1, x ∉ d2 := by
    have g3 := (definitions_props gs).2.2.1
    rw [h] at g3
    exact (List.pairwise_cons.mp g3).1 d2 (by simp)
  rw [_is_simple_split, h]
  constructor
  · intro htrue
    simp only [Except.ok.injEq] at htrue
    rw [List.any_eq_true] at htrue
    obtain ⟨center, hcenter, hinner⟩ := htrue
    rw [List.any_eq_true] at hinner
    obtain ⟨channel, hchannel, hcond⟩ := hinner
    rw [decide_eq_true_iff] at hcond
    exact ⟨d1, d2, h, center, hcenter, channel, hchannel, hcond.1, hcond.2.2⟩
  · rintro ⟨e1, e2, he, center, hcenter, channel, hchannel, hnch, hharm⟩
    rw [h] at he
    simp only [List.cons.injEq, and_true] at he
    obtain ⟨he1, he2⟩ := he
    subst he1
    subst he2
    simp only [Except.ok.injEq]
    rw [List.any_eq_true]
    refine ⟨center, hcenter, ?_⟩
    rw [List.any_eq_true]
    refine ⟨channel, hchannel, ?_⟩
    rw [decide_eq_true_iff]
    exact ⟨hnch, fun hmem1 => hdisj _ hmem1 hharm, hharm⟩

/-- C4: `Chart.definition_type` maps a Definitions count of 0/1/3/4 to
No/Single/Triple-Split/Quadruple-Split, raises for any count above 4, and for
a count of exactly 2 returns Simple-Split iff some Center of the first
Definition has an incident Undefined Channel whose harmonic Center lies in the
second Definition (`bridge_exists`), Wide-Split otherwise. -/
theorem definition_type_spec (gs : List Nat) :
    (definition_type gs = .ok .no ↔ (definitions gs).length = 0) ∧
    (definition_type gs = .ok .single ↔ (definitions gs).length = 1) ∧
    (definition_type gs = .ok .simpleSplit ↔
      (definitions gs).length = 2 ∧ bridge_exists gs) ∧
    (definition_type gs = .ok .wideSplit ↔
      (definitions gs).length = 2 ∧ ¬ bridge_exists gs) ∧
    (definition_type gs = .ok .tripleSplit ↔ (definitions gs).length = 3) ∧
    (definition_type gs = .ok .quadrupleSplit ↔ (definitions gs).length = 4) ∧
    ((∃ e, definition_type gs = .error e) ↔ 4 < (definitions gs).length) := by
  rcases hn : (definitions gs).length with _ | _ | _ | _ | _ | k
  · simp only [definition_type, hn]
    simp
  · simp only [definition_type, hn]
    simp
  · obtain ⟨d1, d2, hd⟩ := List.length_eq_two.mp hn
    have hiff := is_simple_split_iff hd
    simp only [definition_type, hn]
    rcases hb : _is_simple_split gs with e | b
    · rw [_is_simple_split, hd] at hb
      cases hb
    · rcases b with _ | _
      · rw [hb] at hiff
        have hnb : ¬ bridge_exists gs := by
          intro hbr
          exact absurd (hiff.mpr hbr) (by simp)
        simp [hnb]
      · rw [hb] at hiff
        have hbr : bridge_exists gs := hiff.mp rfl
        simp [hbr]
  · simp only [definition_type, hn]
    simp
  · simp only [definition_type, hn]
    simp
  · simp only [definition_type, hn]
    simp [numDefinitionsMsg]

/-- The claim's phrasing of the Channel conditions in `Chart.authority`:
some Defined Channel connects the (distinct) Centers `c1` and `c2`. -/
def channel_connecting (gs : List Nat) (c1 c2 : Center) : Prop :=
  ∃ ch ∈ channels gs,
    (ch.center1 = c1 ∧ ch.center2 = c2) ∨ (ch.center1 = c2 ∧ ch.center2 = c1)

theorem connecting_pair_iff {c1 c2 : Center} (hne : c1 ≠ c2) (ch : Channel) :
    ((c1 ∈ ch.centersList ∧ c2 ∈ ch.centersList) ∧
     (ch.center1 = c1 ∨ ch.center1 = c2) ∧
     (ch.center2 = c1 ∨ ch.center2 = c2)) ↔
    ((ch.center1 = c1 ∧ ch.center2 = c2) ∨ (ch.center1 = c2 ∧ ch.center2 = c1)) := by
  simp only [Channel.centersList, List.mem_cons, List.mem_singleton, List.not_mem_nil,
    or_false]
  constructor
  · rintro ⟨⟨hc1, hc2⟩, ha | ha, hb | hb⟩
    · rcases hc2 with h | h
      · exact absurd (h.trans ha) hne.symm
      · exact absurd (h.trans hb) hne.symm
    · exact Or.inl ⟨ha, hb⟩
    · exact Or.inr ⟨ha, hb⟩
    · rcases hc1 with h | h
      · exact absurd (h.trans ha) hne
      · exact absurd (h.trans hb) hne
  · rintro (⟨ha, hb⟩ | ⟨ha, hb⟩)
    · exact ⟨⟨Or.inl ha.symm, Or.inr hb.symm⟩, Or.inl ha, Or.inr hb⟩
    · exact ⟨⟨Or.inr hb.symm, Or.inl ha.symm⟩, Or.inr ha, Or.inl hb⟩

theorem has_any_connecting_iff {gs : List Nat} {c1 c2 : Center} (hne : c1 ≠ c2) :
    has_any_channel gs (connecting_centers c1 c2) = true ↔ channel_connecting gs c1 c2 := by
  rw [has_any_channel, List.any_eq_true]
  constructor
  · rintro ⟨ch, hmem, hch⟩
    rw [has_channel, decide_eq_true_iff] at hch
    have hcond := (List.mem_filter.mp hmem).2
    rw [decide_eq_true_iff] at hcond
    exact ⟨ch, hch, (connecting_pair_iff hne ch).mp hcond⟩
  · rintro ⟨ch, hch, hpair⟩
    refine ⟨ch, ?_, ?_⟩
    · rw [connecting_centers]
      refine List.mem_filter.mpr ⟨(mem_channels.mp hch).1, ?_⟩
      rw [decide_eq_true_iff]
      exact (connecting_pair_iff hne ch).mpr hpair
    · rw [has_channel, decide_eq_true_iff]
      exact hch

/-- C3: `Chart.authority` is decided by the first-match priority of the claim:
Lunar for no Defined Centers; then the single-center conditions Solar Plexus,
Sacral, Splenic; then a Defined Channel connecting Heart-Throat (Ego
Manifested), Heart-G (Ego Projected), G-Throat (Self Projected); else Outer
Authority.  Stated as an exact characterisation of each outcome. -/
theorem authority_spec (gs : List Nat) :
    (authority gs = .lunar ↔ centers gs = []) ∧
    (authority gs = .solarPlexus ↔ Center.solarPlexus ∈ centers gs) ∧
    (authority gs = .sacral ↔
      Center.solarPlexus ∉ centers gs ∧ Center.sacral ∈ centers gs) ∧
    (authority gs = .splenic ↔
      Center.solarPlexus ∉ centers gs ∧ Center.sacral ∉ centers gs ∧
      Center.splenic ∈ centers gs) ∧
    (authority gs = .egoManifested ↔
      centers gs ≠ [] ∧ Center.solarPlexus ∉ centers gs ∧
      Center.sacral ∉ centers gs ∧ Center.splenic ∉ centers gs ∧
      channel_connecting gs .heart .throat) ∧
    (authority gs = .egoProjected ↔
      centers gs ≠ [] ∧ Center.solarPlexus ∉ centers gs ∧
      Center.sacral ∉ centers gs ∧ Center.splenic ∉ centers gs ∧
      ¬ channel_connecting gs .heart .throat ∧ channel_connecting gs .heart .g) ∧
    (authority gs = .selfProjected ↔
      centers gs ≠ [] ∧ Center.solarPlexus ∉ centers gs ∧
      Center.sacral ∉ centers gs ∧ Center.splenic ∉ centers gs ∧
      ¬ channel_connecting gs .heart .throat ∧ ¬ channel_connecting gs .heart .g ∧
      channel_connecting gs .g .throat) ∧
    (authority gs = .outerAuthority ↔
      centers gs ≠ [] ∧ Center.solarPlexus ∉ centers gs ∧
      Center.sacral ∉ centers gs ∧ Center.splenic ∉ centers gs ∧
      ¬ channel_connecting gs .heart .throat ∧ ¬ channel_connecting gs .heart .g ∧
      ¬ channel_connecting gs .g .throat) := by
  have hne_ht : (Center.heart : Center) ≠ .throat := by decide
  have hne_hg : (Center.heart : Center) ≠ .g := by decide
  have hne_gt : (Center.g : Center) ≠ .throat := by decide
  unfold authority
  split_ifs with h0 h1 h2 h3 h4 h5 h6
  · have hc : centers gs = [] := List.length_eq_zero.mp h0
    refine ⟨by simp [hc], by simp [hc], by simp [hc], by simp [hc], by simp [hc],
      by simp [hc], by simp [hc], by simp [hc]⟩
  all_goals
    have hne : centers gs ≠ [] := fun h => h0 (by rw [h]; rfl)
  · rw [has_center, decide_eq_true_iff] at h1
    refine ⟨by simp [hne], by simp [h1], by simp [h1], by simp [h1], by simp [h1],
      by simp [h1], by simp [h1], by simp [h1]⟩
  all_goals
    rw [has_center, decide_eq_true_iff] at h1
  · rw [has_center, decide_eq_true_iff] at h2
    refine ⟨by simp [hne], by simp [h1], by simp [h1, h2], by simp [h2], by simp [h2],
      by simp [h2], by simp [h2], by simp [h2]⟩
  all_goals
    rw [has_center, decide_eq_true_iff] at h2
  · rw [has_center, decide_eq_true_iff] at h3
    refine ⟨by simp [hne], by simp [h1], by simp [h1, h2], by simp [h1, h2, h3],
      by simp [h3], by simp [h3], by simp [h3], by simp [h3]⟩
  all_goals
    rw [has_center, decide_eq_true_iff] at h3
  · rw [has_any_connecting_iff hne_ht] at h4
    refine ⟨by simp [hne], by simp [h1], by simp [h1, h2], by simp [h1, h2, h3],
      by simp [hne, h1, h2, h3, h4], by simp [h4], by simp [h4], by simp [h4]⟩
  all_goals
    rw [has_any_connecting_iff hne_ht] at h4
  · rw [has_any_connecting_iff hne_hg] at h5
    refine ⟨by simp [hne], by simp [h1], by simp [h1, h2], by simp [h1, h2, h3],
      by simp [h4], by simp [hne, h1, h2, h3, h4, h5], by simp [h5], by simp [h5]⟩
  all_goals
    rw [has_any_connecting_iff hne_hg] at h5
  · rw [has_any_connecting_iff hne_gt] at h6
    refine ⟨by simp [hne], by simp [h1], by simp [h1, h2], by simp [h1, h2, h3],
      by simp [h4], by simp [h5], by simp [hne, h1, h2, h3, h4, h5, h6], by simp [h6]⟩
  · rw [has_any_connecting_iff hne_gt] at h6
    refine ⟨by simp [hne], by simp [h1], by simp [h1, h2], by simp [h1, h2, h3],
      by simp [h4], by simp [h5], by simp [h6], by simp [hne, h1, h2, h3, h4, h5, h6]⟩

/-- Insertion into a sorted list of gate numbers (for `tuple(sorted(...))`;
`Gates` sorts by `num`). -/
def insertSorted (gate : Nat) : List Nat → List Nat
  | [] => [gate]
  | g2 :: rest => if gate ≤ g2 then gate :: g2 :: rest else g2 :: insertSorted gate rest

/-- Insertion sort on gate numbers, modelling Python `sorted`. -/
def sortGates : List Nat → List Nat
  | [] => []
  | g1 :: rest => insertSorted g1 (sortGates rest)

/-- The loop body of `Chart.bridging_gates`:

```
gate1_is_activated = gate1 in self.gates
gate2_is_activated = gate2 in self.gates
if gate1_is_activated and gate2_is_activated:
    bridging.append(gate2)
elif gate2_is_activated and gate1_is_activated:
    bridging.append(gate1)
```

Note the `elif` condition is the same conjunction as the `if` condition, so
its branch is dead; it is embedded nevertheless. -/
def bridging_step (gs : List Nat) (bridging : List Nat) (channel : Channel) : List Nat :=
  let gate1_is_activated : Bool := decide (channel.gate1 ∈ gs)
  let gate2_is_activated : Bool := decide (channel.gate2 ∈ gs)
  if gate1_is_activated && gate2_is_activated then bridging ++ [channel.gate2]
  else if gate2_is_activated && gate1_is_activated then bridging ++ [channel.gate1]
  else bridging

/-- `Chart.bridging_gates`: loop over all Channels accumulating, then
`tuple(sorted(bridging))`. -/
def bridging_gates (gs : List Nat) : List Nat :=
  sortGates (channelList.foldl (bridging_step gs) [])

theorem insertSorted_perm (gate : Nat) (l : List Nat) :
    (insertSorted gate l).Perm (gate :: l) := by
  induction l with
  | nil => exact List.Perm.refl _
  | cons h t iht =>
    rw [insertSorted]
    split
    · exact List.Perm.refl _
    · exact (iht.cons h).trans (List.Perm.swap gate h t)

theorem sortGates_perm (l : List Nat) : (sortGates l).Perm l := by
  induction l with
  | nil => exact List.Perm.refl _
  | cons h t iht => exact (insertSorted_perm h (sortGates t)).trans (iht.cons h)

theorem bridging_step_foldl (gs : List Nat) :
    ∀ (chs : List Channel) (acc : List Nat),
    chs.foldl (bridging_step gs) acc
      = acc ++ (chs.filter fun ch => decide (ch.gate1 ∈ gs ∧ ch.gate2 ∈ gs)).map
          fun ch => ch.gate2 := by
  intro chs
  induction chs with
  | nil => simp
  | cons ch rest ih =>
    intro acc
    rw [List.foldl_cons, ih, List.filter_cons]
    by_cases h1 : ch.gate1 ∈ gs <;> by_cases h2 : ch.gate2 ∈ gs
    · simp [bridging_step, h1, h2]
    · simp [bridging_step, h1, h2]
    · simp [bridging_step, h1, h2]
    · simp [bridging_step, h1, h2]

/-- C10: in `Chart.bridging_gates` the `elif` branch is dead (its condition is
the same conjunction as the `if`): the returned tuple is a permutation of one
Gate (the Channel's second Gate) per Channel whose two Gates are both
Activated, and every returned Gate is Activated — so the tuple never contains
an Unactivated Gate whose Harmonic Gate is Activated. -/
theorem bridging_gates_spec (gs : List Nat) :
    (bridging_gates gs).Perm
      ((channelList.filter fun ch => decide (ch.gate1 ∈ gs ∧ ch.gate2 ∈ gs)).map
        fun ch => ch.gate2) ∧
    (∀ gate ∈ bridging_gates gs, gate ∈ gs) := by
  have hperm : (bridging_gates gs).Perm
      ((channelList.filter fun ch => decide (ch.gate1 ∈ gs ∧ ch.gate2 ∈ gs)).map
        fun ch => ch.gate2) := by
    rw [bridging_gates, bridging_step_foldl gs channelList [], List.nil_append]
    exact sortGates_perm _
  refine ⟨hperm, ?_⟩
  intro gate hg
  have hmem := hperm.mem_iff.mp hg
  rw [List.mem_map] at hmem
  obtain ⟨ch, hch, rfl⟩ := hmem
  have hcond := (List.mem_filter.mp hch).2
  rw [decide_eq_true_iff] at hcond
  exact hcond.2

/-- Witness for C10 at the concrete chart with activated gates 10 and 20:
gate 20 (returned for the fully activated Channel 10-20) is itself activated. -/
theorem bridging_gates_spec_witness : 20 ∈ ([10, 20] : List Nat) :=
  (bridging_gates_spec [10, 20]).2 20 (by decide)

/-- The 3 Geometries (`Geometries` in `constants/__init__.py`). -/
inductive Geometry where
  | leftAngle
  | juxtaposition
  | rightAngle
deriving DecidableEq, Repr

/-- The 3 Destinies (`Destinies` in `constants/__init__.py`). -/
inductive Destiny where
  | transpersonal
  | fixedFate
  | personal
deriving DecidableEq, Repr

/-- One of the 12 Profiles: its Personality and Design Lines (by number), its
Geometry, and its Destiny. -/
structure Profile where
  personality_line : Nat
  design_line : Nat
  geometry : Geometry
  destiny : Destiny
deriving DecidableEq, Repr

/-- The 12 Profiles of the `Profiles` enum, in source order.  The enum member
keys `_1_3` ... `_6_3` coincide with the `(personality_line, design_line)`
fields, so `Profiles.get`, which looks up the key built from the two Line
numbers, is a lookup by those fields. -/
def profileList : List Profile := [
  ⟨1, 3, .rightAngle, .personal⟩,
  ⟨1, 4, .rightAngle, .personal⟩,
  ⟨2, 4, .rightAngle, .personal⟩,
  ⟨2, 5, .rightAngle, .personal⟩,
  ⟨3, 5, .rightAngle, .personal⟩,
  ⟨3, 6, .rightAngle, .personal⟩,
  ⟨4, 1, .juxtaposition, .fixedFate⟩,
  ⟨4, 6, .rightAngle, .transpersonal⟩,
  ⟨5, 1, .leftAngle, .transpersonal⟩,
  ⟨5, 2, .leftAngle, .transpersonal⟩,
  ⟨6, 2, .leftAngle, .transpersonal⟩,
  ⟨6, 3, .leftAngle, .transpersonal⟩]

/-- `Profiles.get(personality, design)`: key lookup `cls[f"_{p}_{d}"]`,
raising (`ValueError`) for an unmapped pair — modelled as `none`. -/
def profiles_get (personality design : Nat) : Option Profile :=
  profileList.find? fun pr =>
    decide (pr.personality_line = personality ∧ pr.design_line = design)

/-- The 12 Catalog-listed (Personality Line, Design Line) pairs. -/
def profile_pairs : List (Nat × Nat) :=
  profileList.map fun pr => (pr.personality_line, pr.design_line)

/-- All 36 possible (Personality Line, Design Line) pairs. -/
def all_line_pairs : List (Nat × Nat) :=
  (List.range 6).flatMap fun p => (List.range 6).map fun d => (p + 1, d + 1)

/-- C8: `Profiles.get` succeeds for exactly the 12 Catalog-listed Line pairs
and raises for each of the other 24 of the 36 possible pairs (for instance
Line 1 paired with Line 1). -/
theorem profiles_get_domain :
    (∀ p d, 1 ≤ p → p ≤ 6 → 1 ≤ d → d ≤ 6 →
      ((profiles_get p d).isSome ↔ (p, d) ∈ profile_pairs)) ∧
    profile_pairs.length = 12 ∧
    (all_line_pairs.filter fun pd => (profiles_get pd.1 pd.2).isSome).length = 12 ∧
    (all_line_pairs.filter fun pd => decide (profiles_get pd.1 pd.2 = none)).length = 24 ∧
    profiles_get 1 1 = none := by
  refine ⟨?_, by decide, by decide, by decide, by decide⟩
  intro p d hp1 hp6 hd1 hd6
  interval_cases p <;> interval_cases d <;> decide

/-- Witness for C8: the valid pair (4, 6) resolves to a Profile. -/
theorem profiles_get_domain_witness :
    (profiles_get 4 6).isSome ↔ (4, 6) ∈ profile_pairs :=
  profiles_get_domain.1 4 6 (by decide) (by decide) (by decide) (by decide)

/-- The 2 Variable Orientations (`Orientations` in `constants/__init__.py`). -/
inductive Orientation where
  | left
  | right
deriving DecidableEq, Repr

/-- `Orientations.get(value)`: `LEFT if value < 4 else RIGHT`.  The chart
reaches it in two ways: `VariableEnum.orientation` passes the member `num`
(a Color number for Motivation/Perspective), and
`Determinations.get_by_color_tone` / `Environments.get_by_color_tone` pass a
`Tones` member, for which `SuperEnum.__lt__` compares `tone.num < 4`. -/
def orientations_get (value : ℤ) : Orientation :=
  if value < 4 then .left else .right

/-- One of the 12 `Determinations` members: its Color number, Orientation, and
name, as in the enum table. -/
structure Determination where
  color : Nat
  orientation : Orientation
  name : String
deriving DecidableEq, Repr

/-- The 12 `Determinations` members, in source order. -/
def determinationList : List Determination := [
  ⟨1, .left, "Appetite, Consecutive"⟩,
  ⟨1, .right, "Appetite, Alternating"⟩,
  ⟨2, .left, "Taste, Open"⟩,
  ⟨2, .right, "Taste, Closed"⟩,
  ⟨3, .left, "Thirst, Hot"⟩,
  ⟨3, .right, "Thirst, Cold"⟩,
  ⟨4, .left, "Touch, Calm"⟩,
  ⟨4, .right, "Touch, Nervous"⟩,
  ⟨5, .left, "Sound, High"⟩,
  ⟨5, .right, "Sound, Low"⟩,
  ⟨6, .left, "Light, Direct"⟩,
  ⟨6, .right, "Light, Indirect"⟩]

/-- `Determinations.get(color, orientation)`: member access by the key built
from the Color number and the Orientation — a lookup by those two fields. -/
def determinations_get (color : Nat) (orientation : Orientation) : Option Determination :=
  determinationList.find? fun d =>
    decide (d.color = color ∧ d.orientation = orientation)

/-- `Determinations.get_by_color_tone(color, tone)`:
`orientation = Orientations.get(tone)` — the Orientation is derived from the
Tone number — then `cls.get(color, orientation)`. -/
def determinations_get_by_color_tone (color tone : Nat) : Option Determination :=
  determinations_get color (orientations_get (tone : ℤ))

/-- One of the 12 `Environments` members. -/
structure Environment where
  color : Nat
  orientation : Orientation
  name : String
deriving DecidableEq, Repr

/-- The 12 `Environments` members, in source order. -/
def environmentList : List Environment := [
  ⟨1, .left, "Caves, Selective"⟩,
  ⟨1, .right, "Caves, Blending"⟩,
  ⟨2, .left, "Markets, Internal"⟩,
  ⟨2, .right, "Markets, External"⟩,
  ⟨3, .left, "Kitchens, Wet"⟩,
  ⟨3, .right, "Kitchens, Dry"⟩,
  ⟨4, .left, "Mountains, Active"⟩,
  ⟨4, .right, "Mountains, Passive"⟩,
  ⟨5, .left, "Valleys, Narrow"⟩,
  ⟨5, .right, "Valleys, Wide"⟩,
  ⟨6, .left, "Shores, Natural"⟩,
  ⟨6, .right, "Shores, Artificial"⟩]

/-- `Environments.get(color, orientation)`. -/
def environments_get (color : Nat) (orientation : Orientation) : Option Environment :=
  environmentList.find? fun e =>
    decide (e.color = color ∧ e.orientation = orientation)

/-- `Environments.get_by_color_tone(color, tone)`. -/
def environments_get_by_color_tone (color tone : Nat) : Option Environment :=
  environments_get color (orientations_get (tone : ℤ))

/-- `Chart.determination`: `Determinations.get_by_color_tone(a.color, a.tone)`
for the Design Sun Activation `a`. -/
def chart_determination (design_sun_color design_sun_tone : Nat) : Option Determination :=
  determinations_get_by_color_tone design_sun_color design_sun_tone

/-- `Chart.environment`: `Environments.get_by_color_tone(a.color, a.tone)` for
the Design North Node Activation `a`. -/
def chart_environment (design_north_node_color design_north_node_tone : Nat) :
    Option Environment :=
  environments_get_by_color_tone design_north_node_color design_north_node_tone

/-- `Chart.motivation`: `Motivations(color.num)` for the Personality Sun
Color, whose `orientation` property is `Orientations.get(num)` — derived from
the Color number. -/
def chart_motivation_orientation (personality_sun_color : Nat) : Orientation :=
  orientations_get (personality_sun_color : ℤ)

/-- `Chart.perspective`: `Perspectives(color.num)` for the Personality North
Node Color; its `orientation` property is likewise `Orientations.get(num)`. -/
def chart_perspective_orientation (personality_north_node_color : Nat) : Orientation :=
  orientations_get (personality_north_node_color : ℤ)

/-- C9 counterexample: for a Design Sun Activation with Color 3 and Tone 5,
the claim predicts Orientation Left (Color index 3 < 4), but
`Chart.determination` selects the (Color 3, Right) member because
`get_by_color_tone` derives the Orientation from the Tone number (5 ≥ 4). -/
theorem determination_orientation_counterexample :
    (chart_determination 3 5).map (fun d => d.orientation) ≠
      some (orientations_get (3 : ℤ)) ∧
    (chart_determination 3 5).map (fun d => d.orientation) = some .right ∧
    orientations_get (3 : ℤ) = .left :=
  ⟨by decide, rfl, rfl⟩

theorem determinations_get_found (color : Nat) (o : Orientation)
    (hc1 : 1 ≤ color) (hc6 : color ≤ 6) :
    ∃ d, determinations_get color o = some d ∧ d.color = color ∧ d.orientation = o := by
  interval_cases color <;> cases o <;> exact ⟨_, rfl, rfl, rfl⟩

theorem environments_get_found (color : Nat) (o : Orientation)
    (hc1 : 1 ≤ color) (hc6 : color ≤ 6) :
    ∃ e, environments_get color o = some e ∧ e.color = color ∧ e.orientation = o := by
  interval_cases color <;> cases o <;> exact ⟨_, rfl, rfl, rfl⟩

/-- C9 amended: Motivation and Perspective Orientations are derived from the
relevant Color number (Left iff the Color number is < 4), while Determination
and Environment are selected by (Color, Orientation) with the Orientation
derived from the relevant Tone number (Left iff the Tone number is < 4); in
particular `Chart.determination` and `Chart.environment` are keyed by the
Design Sun (Color, Tone) and Design North Node (Color, Tone). -/
theorem variables_orientation_amended (color tone : Nat)
    (hc1 : 1 ≤ color) (hc6 : color ≤ 6) :
    (∃ d, chart_determination color tone = some d ∧ d.color = color ∧
      d.orientation = (if (tone : ℤ) < 4 then .left else .right)) ∧
    (∃ e, chart_environment color tone = some e ∧ e.color = color ∧
      e.orientation = (if (tone : ℤ) < 4 then .left else .right)) ∧
    chart_motivation_orientation color = (if (color : ℤ) < 4 then .left else .right) ∧
    chart_perspective_orientation color = (if (color : ℤ) < 4 then .left else .right) := by
  obtain ⟨d, hd, hdc, hdo⟩ :=
    determinations_get_found color (orientations_get (tone : ℤ)) hc1 hc6
  obtain ⟨e, he, hec, heo⟩ :=
    environments_get_found color (orientations_get (tone : ℤ)) hc1 hc6
  exact ⟨⟨d, hd, hdc, hdo⟩, ⟨e, he, hec, heo⟩, rfl, rfl⟩

/-- Witness for C9's amended claim at Color 2, Tone 5: the selected
Determination is the (Color 2, Right) member. -/
theorem variables_orientation_amended_witness :
    ∃ d, chart_determination 2 5 = some d ∧ d.color = 2 ∧
      d.orientation = (if ((5 : Nat) : ℤ) < 4 then .left else .right) :=
  (variables_orientation_amended 2 5 (by decide) (by decide)).1

/-- `GATE_WHEEL_START_DEGREES` (302.0). -/
def GATE_WHEEL_START_DEGREES : ℚ := 302

/-- `GATE_SEGMENT = 5.625` (360 / 64). -/
def GATE_SEGMENT : ℚ := 5.625

/-- `LINE_SEGMENT = 0.9375`. -/
def LINE_SEGMENT : ℚ := 0.9375

/-- `COLOR_SEGMENT = 0.15625`. -/
def COLOR_SEGMENT : ℚ := 0.15625

/-- `TONE_SEGMENT = 0.15625 / 6`. -/
def TONE_SEGMENT : ℚ := 0.15625 / 6

/-- `BASE_SEGMENT = 0.15625 / 6 / 5`. -/
def BASE_SEGMENT : ℚ := 0.15625 / 6 / 5

/-- `normalize_degrees` (`swe.degnorm`): reduce into [0, 360).  Python floats
are modelled as exact rationals. -/
def normalize_degrees (degrees : ℚ) : ℚ :=
  degrees - 360 * ⌊degrees / 360⌋

/-- Python `divmod(a, b)` for rationals (floor division), as used on floats in
`Activation._compute_data`. -/
def pydivmod (a b : ℚ) : ℤ × ℚ :=
  (⌊a / b⌋, a - b * ⌊a / b⌋)

/-- The numeric outputs of `Activation._compute_data`: the raw wheel index and
the one-based Line/Color/Tone/Base numbers (the source wraps them in
`Lines(...)` etc.), plus the three sub-segment percentages. -/
structure ActivationData where
  gate_index : ℤ
  line : ℤ
  color : ℤ
  tone : ℤ
  base : ℤ
  color_percentage : ℚ
  tone_percentage : ℚ
  base_percentage : ℚ
deriving DecidableEq, Repr

/-- `Activation._compute_data`: the successive divmod chain

```
gate_index,  position_in_gate  = divmod(self.angle,        GATE_SEGMENT)
line_index,  position_in_line  = divmod(position_in_gate,  LINE_SEGMENT)
color_index, position_in_color = divmod(position_in_line,  COLOR_SEGMENT)
tone_index,  position_in_tone  = divmod(position_in_color, TONE_SEGMENT)
base_index,  position_in_base  = divmod(position_in_tone,  BASE_SEGMENT)
```

with `line = line_index + 1` (and likewise for color/tone/base) and
`color_percentage = position_in_color / COLOR_SEGMENT * 100.0` (and likewise
for tone/base). -/
def compute_data (angle : ℚ) : ActivationData :=
  let gate_div := pydivmod angle GATE_SEGMENT
  let line_div := pydivmod gate_div.2 LINE_SEGMENT
  let color_div := pydivmod line_div.2 COLOR_SEGMENT
  let tone_div := pydivmod color_div.2 TONE_SEGMENT
  let base_div := pydivmod tone_div.2 BASE_SEGMENT
  { gate_index := gate_div.1
    line := line_div.1 + 1
    color := color_div.1 + 1
    tone := tone_div.1 + 1
    base := base_div.1 + 1
    color_percentage := color_div.2 / COLOR_SEGMENT * 100
    tone_percentage := tone_div.2 / TONE_SEGMENT * 100
    base_percentage := base_div.2 / BASE_SEGMENT * 100 }

/-- `Activation._compute_position`: the angle fed to `_compute_data` is
`normalize_degrees(longitude - GATE_WHEEL_START_DEGREES)`. -/
def compute_angle (longitude : ℚ) : ℚ :=
  normalize_degrees (longitude - GATE_WHEEL_START_DEGREES)

/-- The `(gate number, wheel_index)` column of the `Gates` enum. -/
def gateWheelTable : List (Nat × ℤ) := [
  (1, 50), (2, 18), (3, 15), (4, 35), (5, 55), (6, 41), (7, 34), (8, 20),
  (9, 54), (10, 58), (11, 57), (12, 25), (13, 2), (14, 52), (15, 26), (16, 22),
  (17, 11), (18, 43), (19, 1), (20, 21), (21, 12), (22, 8), (23, 19), (24, 17),
  (25, 10), (26, 56), (27, 16), (28, 48), (29, 36), (30, 4), (31, 32), (32, 46),
  (33, 33), (34, 53), (35, 23), (36, 9), (37, 6), (38, 60), (39, 28), (40, 38),
  (41, 0), (42, 14), (43, 51), (44, 49), (45, 24), (46, 42), (47, 40), (48, 44),
  (49, 3), (50, 47), (51, 13), (52, 27), (53, 29), (54, 61), (55, 5), (56, 31),
  (57, 45), (58, 59), (59, 37), (60, 63), (61, 62), (62, 30), (63, 7), (64, 39)]

/-- `Gates.start_angle`:
`(GATE_WHEEL_START_DEGREES + (self.wheel_index * GATE_SEGMENT)) % 360`. -/
def start_angle (wheel_index : ℤ) : ℚ :=
  normalize_degrees (GATE_WHEEL_START_DEGREES + wheel_index * GATE_SEGMENT)

/-- `Gates.get_by_wheel_index`: the Gate at the given wheel index (raises for
an index without a Gate — modelled as `none`). -/
def get_by_wheel_index (index : ℤ) : Option Nat :=
  (gateWheelTable.find? fun q => decide (q.2 = index)).map fun q => q.1

/-- The angle at the lower boundary of a five-level cell: the Gate's start
angle plus the lower-boundary offsets of the chosen Line/Color/Tone/Base
segments, normalized into [0, 360). -/
def cell_boundary_longitude (wheel_index l c t b : ℤ) : ℚ :=
  normalize_degrees (start_angle wheel_index +
    (((l : ℚ) - 1) * LINE_SEGMENT + ((c : ℚ) - 1) * COLOR_SEGMENT +
     ((t : ℚ) - 1) * TONE_SEGMENT + ((b : ℚ) - 1) * BASE_SEGMENT))

theorem normalize_sub_int_mul (z : ℚ) (k : ℤ) :
    normalize_degrees (z - 360 * k) = normalize_degrees z := by
  unfold normalize_degrees
  have hdiv : (z - 360 * k) / 360 = z / 360 - k := by
    field_simp
  rw [hdiv, Int.floor_sub_int]
  push_cast
  ring

theorem normalize_normalize_add (x y : ℚ) :
    normalize_degrees (normalize_degrees x + y) = normalize_degrees (x + y) := by
  have h : normalize_degrees x + y = (x + y) - 360 * (⌊x / 360⌋ : ℤ) := by
    unfold normalize_degrees
    ring
  rw [h, normalize_sub_int_mul]

theorem normalize_eq_self {x : ℚ} (h0 : 0 ≤ x) (h360 : x < 360) :
    normalize_degrees x = x := by
  unfold normalize_degrees
  have hfloor : ⌊x / 360⌋ = 0 := by
    refine Int.floor_eq_zero_iff.mpr ?_
    constructor
    · exact div_nonneg h0 (by norm_num)
    · rw [div_lt_one (by norm_num : (0:ℚ) < 360)]
      exact h360
  rw [hfloor]
  push_cast
  ring

theorem pydivmod_cell {s r : ℚ} (k : ℤ) (hs : 0 < s) (hr0 : 0 ≤ r) (hrs : r < s) :
    pydivmod ((k : ℚ) * s + r) s = (k, r) := by
  unfold pydivmod
  have hdiv : ((k : ℚ) * s + r) / s = r / s + k := by
    field_simp
    ring
  have hfr : ⌊r / s⌋ = 0 := by
    refine Int.floor_eq_zero_iff.mpr ?_
    exact ⟨div_nonneg hr0 hs.le, (div_lt_one hs).mpr hrs⟩
  have hfloor : ⌊((k : ℚ) * s + r) / s⌋ = k := by
    rw [hdiv, Int.floor_add_int, hfr, zero_add]
  rw [hfloor, Prod.mk.injEq]
  exact ⟨rfl, by ring⟩

theorem pydivmod_snd_bounds (a : ℚ) {s : ℚ} (hs : 0 < s) :
    0 ≤ (pydivmod a s).2 ∧ (pydivmod a s).2 < s := by
  have key : (pydivmod a s).2 = s * Int.fract (a / s) := by
    unfold pydivmod Int.fract
    rw [mul_sub, mul_div_cancel₀ a hs.ne']
  constructor
  · rw [key]
    exact mul_nonneg hs.le (Int.fract_nonneg _)
  · rw [key]
    calc s * Int.fract (a / s) < s * 1 :=
          mul_lt_mul_of_pos_left (Int.fract_lt_one _) hs
      _ = s := mul_one s

theorem percentage_bounds (x : ℚ) {s : ℚ} (hs : 0 < s) :
    0 ≤ (pydivmod x s).2 / s * 100 ∧ (pydivmod x s).2 / s * 100 < 100 := by
  obtain ⟨h0, h1⟩ := pydivmod_snd_bounds x hs
  constructor
  · exact mul_nonneg (div_nonneg h0 hs.le) (by norm_num)
  · have hlt : (pydivmod x s).2 / s < 1 := (div_lt_one hs).mpr h1
    linarith

theorem compute_data_percentages (θ : ℚ) :
    0 ≤ (compute_data θ).color_percentage ∧ (compute_data θ).color_percentage < 100 ∧
    0 ≤ (compute_data θ).tone_percentage ∧ (compute_data θ).tone_percentage < 100 ∧
    0 ≤ (compute_data θ).base_percentage ∧ (compute_data θ).base_percentage < 100 := by
  have hCS : (0:ℚ) < COLOR_SEGMENT := by norm_num [COLOR_SEGMENT]
  have hTS : (0:ℚ) < TONE_SEGMENT := by norm_num [TONE_SEGMENT]
  have hBS : (0:ℚ) < BASE_SEGMENT := by norm_num [BASE_SEGMENT]
  simp only [compute_data]
  exact ⟨(percentage_bounds _ hCS).1, (percentage_bounds _ hCS).2,
    (percentage_bounds _ hTS).1, (percentage_bounds _ hTS).2,
    (percentage_bounds _ hBS).1, (percentage_bounds _ hBS).2⟩

/-- The index fields of `compute_data` at a cell's lower-boundary angle. -/
theorem compute_data_cell (w l c t b : ℤ)
    (hl1 : 1 ≤ l) (hl6 : l ≤ 6) (hc1 : 1 ≤ c) (hc6 : c ≤ 6)
    (ht1 : 1 ≤ t) (ht6 : t ≤ 6) (hb1 : 1 ≤ b) (hb5 : b ≤ 5) :
    compute_data ((w : ℚ) * GATE_SEGMENT +
        (((l : ℚ) - 1) * LINE_SEGMENT + ((c : ℚ) - 1) * COLOR_SEGMENT +
         ((t : ℚ) - 1) * TONE_SEGMENT + ((b : ℚ) - 1) * BASE_SEGMENT)) =
      { gate_index := w, line := l, color := c, tone := t, base := b
        color_percentage := (((t : ℚ) - 1) * TONE_SEGMENT + ((b : ℚ) - 1) * BASE_SEGMENT)
          / COLOR_SEGMENT * 100
        tone_percentage := ((b : ℚ) - 1) * BASE_SEGMENT / TONE_SEGMENT * 100
        base_percentage := 0 } := by
  have hGS : GATE_SEGMENT = 45/8 := by norm_num [GATE_SEGMENT]
  have hLS : LINE_SEGMENT = 15/16 := by norm_num [LINE_SEGMENT]
  have hCS : COLOR_SEGMENT = 5/32 := by norm_num [COLOR_SEGMENT]
  have hTS : TONE_SEGMENT = 5/192 := by norm_num [TONE_SEGMENT]
  have hBS : BASE_SEGMENT = 1/192 := by norm_num [BASE_SEGMENT]
  have hlq1 : (1:ℚ) ≤ (l:ℚ) := by exact_mod_cast hl1
  have hlq6 : (l:ℚ) ≤ 6 := by exact_mod_cast hl6
  have hcq1 : (1:ℚ) ≤ (c:ℚ) := by exact_mod_cast hc1
  have hcq6 : (c:ℚ) ≤ 6 := by exact_mod_cast hc6
  have htq1 : (1:ℚ) ≤ (t:ℚ) := by exact_mod_cast ht1
  have htq6 : (t:ℚ) ≤ 6 := by exact_mod_cast ht6
  have hbq1 : (1:ℚ) ≤ (b:ℚ) := by exact_mod_cast hb1
  have hbq5 : (b:ℚ) ≤ 5 := by exact_mod_cast hb5
  have h1 : pydivmod ((w : ℚ) * GATE_SEGMENT +
      (((l : ℚ) - 1) * LINE_SEGMENT + ((c : ℚ) - 1) * COLOR_SEGMENT +
       ((t : ℚ) - 1) * TONE_SEGMENT + ((b : ℚ) - 1) * BASE_SEGMENT)) GATE_SEGMENT
      = (w, ((l : ℚ) - 1) * LINE_SEGMENT + ((c : ℚ) - 1) * COLOR_SEGMENT +
            ((t : ℚ) - 1) * TONE_SEGMENT + ((b : ℚ) - 1) * BASE_SEGMENT) := by
    refine pydivmod_cell w (by rw [hGS]; norm_num) ?_ ?_
    · rw [hLS, hCS, hTS, hBS]
      nlinarith
    · rw [hGS, hLS, hCS, hTS, hBS]
      nlinarith
  have h2shape : ((l : ℚ) - 1) * LINE_SEGMENT + ((c : ℚ) - 1) * COLOR_SEGMENT +
      ((t : ℚ) - 1) * TONE_SEGMENT + ((b : ℚ) - 1) * BASE_SEGMENT
      = ((l - 1 : ℤ) : ℚ) * LINE_SEGMENT +
        (((c : ℚ) - 1) * COLOR_SEGMENT + ((t : ℚ) - 1) * TONE_SEGMENT +
         ((b : ℚ) - 1) * BASE_SEGMENT) := by
    push_cast
    ring
  have h2 : pydivmod (((l : ℚ) - 1) * LINE_SEGMENT + ((c : ℚ) - 1) * COLOR_SEGMENT +
      ((t : ℚ) - 1) * TONE_SEGMENT + ((b : ℚ) - 1) * BASE_SEGMENT) LINE_SEGMENT
      = (l - 1, ((c : ℚ) - 1) * COLOR_SEGMENT + ((t : ℚ) - 1) * TONE_SEGMENT +
                ((b : ℚ) - 1) * BASE_SEGMENT) := by
    rw [h2shape]
    refine pydivmod_cell (l - 1) (by rw [hLS]; norm_num) ?_ ?_
    · rw [hCS, hTS, hBS]
      nlinarith
    · rw [hLS, hCS, hTS, hBS]
      nlinarith
  have h3shape : ((c : ℚ) - 1) * COLOR_SEGMENT + ((t : ℚ) - 1) * TONE_SEGMENT +
      ((b : ℚ) - 1) * BASE_SEGMENT
      = ((c - 1 : ℤ) : ℚ) * COLOR_SEGMENT +
        (((t : ℚ) - 1) * TONE_SEGMENT + ((b : ℚ) - 1) * BASE_SEGMENT) := by
    push_cast
    ring
  have h3 : pydivmod (((c : ℚ) - 1) * COLOR_SEGMENT + ((t : ℚ) - 1) * TONE_SEGMENT +
      ((b : ℚ) - 1) * BASE_SEGMENT) COLOR_SEGMENT
      = (c - 1, ((t : ℚ) - 1) * TONE_SEGMENT + ((b : ℚ) - 1) * BASE_SEGMENT) := by
    rw [h3shape]
    refine pydivmod_cell (c - 1) (by rw [hCS]; norm_num) ?_ ?_
    · rw [hTS, hBS]
      nlinarith
    · rw [hCS, hTS, hBS]
      nlinarith
  have h4shape : ((t : ℚ) - 1) * TONE_SEGMENT + ((b : ℚ) - 1) * BASE_SEGMENT
      = ((t - 1 : ℤ) : ℚ) * TONE_SEGMENT + ((b : ℚ) - 1) * BASE_SEGMENT := by
    push_cast
    ring
  have h4 : pydivmod (((t : ℚ) - 1) * TONE_SEGMENT + ((b : ℚ) - 1) * BASE_SEGMENT)
      TONE_SEGMENT
      = (t - 1, ((b : ℚ) - 1) * BASE_SEGMENT) := by
    rw [h4shape]
    refine pydivmod_cell (t - 1) (by rw [hTS]; norm_num) ?_ ?_
    · rw [hBS]
      nlinarith
    · rw [hTS, hBS]
      nlinarith
  have h5shape : ((b : ℚ) - 1) * BASE_SEGMENT = ((b - 1 : ℤ) : ℚ) * BASE_SEGMENT + 0 := by
    push_cast
    ring
  have h5 : pydivmod (((b : ℚ) - 1) * BASE_SEGMENT) BASE_SEGMENT = (b - 1, 0) := by
    rw [h5shape]
    refine pydivmod_cell (b - 1) (by rw [hBS]; norm_num) le_rfl ?_
    rw [hBS]
    norm_num
  simp only [compute_data, h1, h2, h3, h4, h5]
  simp only [ActivationData.mk.injEq]
  and_intros <;> first | trivial | omega | norm_num

/-- C6: decomposing the angle at a cell's lower boundary — the Gate's start
angle plus the lower-boundary offsets of the chosen Line/Color/Tone/Base
segments, normalized into [0, 360), then shifted by the wheel origin as in
`Activation._compute_position` — through the divmod chain of
`Activation._compute_data` yields back exactly that cell (the Gate found at
the produced wheel index is the chosen Gate), and the three computed
percentages always lie in [0, 100). -/
theorem compute_data_roundtrip (p : Nat × ℤ) (hp : p ∈ gateWheelTable) (l c t b : ℤ)
    (hl1 : 1 ≤ l) (hl6 : l ≤ 6) (hc1 : 1 ≤ c) (hc6 : c ≤ 6)
    (ht1 : 1 ≤ t) (ht6 : t ≤ 6) (hb1 : 1 ≤ b) (hb5 : b ≤ 5) :
    ((compute_data (compute_angle (cell_boundary_longitude p.2 l c t b))).gate_index = p.2 ∧
     (compute_data (compute_angle (cell_boundary_longitude p.2 l c t b))).line = l ∧
     (compute_data (compute_angle (cell_boundary_longitude p.2 l c t b))).color = c ∧
     (compute_data (compute_angle (cell_boundary_longitude p.2 l c t b))).tone = t ∧
     (compute_data (compute_angle (cell_boundary_longitude p.2 l c t b))).base = b ∧
     get_by_wheel_index
       (compute_data (compute_angle (cell_boundary_longitude p.2 l c t b))).gate_index
       = some p.1) ∧
    (∀ θ : ℚ,
      0 ≤ (compute_data θ).color_percentage ∧ (compute_data θ).color_percentage < 100 ∧
      0 ≤ (compute_data θ).tone_percentage ∧ (compute_data θ).tone_percentage < 100 ∧
      0 ≤ (compute_data θ).base_percentage ∧ (compute_data θ).base_percentage < 100) := by
  have hwb : ∀ q ∈ gateWheelTable, 0 ≤ q.2 ∧ q.2 ≤ 63 := by decide
  have hlookup : ∀ q ∈ gateWheelTable, get_by_wheel_index q.2 = some q.1 := by decide
  obtain ⟨hw0, hw63⟩ := hwb p hp
  have hwq0 : (0:ℚ) ≤ (p.2 : ℚ) := by exact_mod_cast hw0
  have hwq63 : (p.2 : ℚ) ≤ 63 := by exact_mod_cast hw63
  have hGS : GATE_SEGMENT = 45/8 := by norm_num [GATE_SEGMENT]
  have hLS : LINE_SEGMENT = 15/16 := by norm_num [LINE_SEGMENT]
  have hCS : COLOR_SEGMENT = 5/32 := by norm_num [COLOR_SEGMENT]
  have hTS : TONE_SEGMENT = 5/192 := by norm_num [TONE_SEGMENT]
  have hBS : BASE_SEGMENT = 1/192 := by norm_num [BASE_SEGMENT]
  have hlq1 : (1:ℚ) ≤ (l:ℚ) := by exact_mod_cast hl1
  have hlq6 : (l:ℚ) ≤ 6 := by exact_mod_cast hl6
  have hcq1 : (1:ℚ) ≤ (c:ℚ) := by exact_mod_cast hc1
  have hcq6 : (c:ℚ) ≤ 6 := by exact_mod_cast hc6
  have htq1 : (1:ℚ) ≤ (t:ℚ) := by exact_mod_cast ht1
  have htq6 : (t:ℚ) ≤ 6 := by exact_mod_cast ht6
  have hbq1 : (1:ℚ) ≤ (b:ℚ) := by exact_mod_cast hb1
  have hbq5 : (b:ℚ) ≤ 5 := by exact_mod_cast hb5
  have hoff0 : 0 ≤ ((l : ℚ) - 1) * LINE_SEGMENT + ((c : ℚ) - 1) * COLOR_SEGMENT +
      ((t : ℚ) - 1) * TONE_SEGMENT + ((b : ℚ) - 1) * BASE_SEGMENT := by
    rw [hLS, hCS, hTS, hBS]
    nlinarith
  have hoffGS : ((l : ℚ) - 1) * LINE_SEGMENT + ((c : ℚ) - 1) * COLOR_SEGMENT +
      ((t : ℚ) - 1) * TONE_SEGMENT + ((b : ℚ) - 1) * BASE_SEGMENT < GATE_SEGMENT := by
    rw [hGS, hLS, hCS, hTS, hBS]
    nlinarith
  have hangle : compute_angle (cell_boundary_longitude p.2 l c t b)
      = (p.2 : ℚ) * GATE_SEGMENT +
        (((l : ℚ) - 1) * LINE_SEGMENT + ((c : ℚ) - 1) * COLOR_SEGMENT +
         ((t : ℚ) - 1) * TONE_SEGMENT + ((b : ℚ) - 1) * BASE_SEGMENT) := by
    rw [cell_boundary_longitude, start_angle, compute_angle, normalize_normalize_add]
    have hsub : normalize_degrees
        (GATE_WHEEL_START_DEGREES + (p.2 : ℚ) * GATE_SEGMENT +
          (((l : ℚ) - 1) * LINE_SEGMENT + ((c : ℚ) - 1) * COLOR_SEGMENT +
           ((t : ℚ) - 1) * TONE_SEGMENT + ((b : ℚ) - 1) * BASE_SEGMENT))
        - GATE_WHEEL_START_DEGREES
        = normalize_degrees
            (GATE_WHEEL_START_DEGREES + (p.2 : ℚ) * GATE_SEGMENT +
              (((l : ℚ) - 1) * LINE_SEGMENT + ((c : ℚ) - 1) * COLOR_SEGMENT +
               ((t : ℚ) - 1) * TONE_SEGMENT + ((b : ℚ) - 1) * BASE_SEGMENT))
          + (- GATE_WHEEL_START_DEGREES) := by
      ring
    rw [hsub, normalize_normalize_add]
    have harg : GATE_WHEEL_START_DEGREES + (p.2 : ℚ) * GATE_SEGMENT +
        (((l : ℚ) - 1) * LINE_SEGMENT + ((c : ℚ) - 1) * COLOR_SEGMENT +
         ((t : ℚ) - 1) * TONE_SEGMENT + ((b : ℚ) - 1) * BASE_SEGMENT)
        + (- GATE_WHEEL_START_DEGREES)
        = (p.2 : ℚ) * GATE_SEGMENT +
          (((l : ℚ) - 1) * LINE_SEGMENT + ((c : ℚ) - 1) * COLOR_SEGMENT +
           ((t : ℚ) - 1) * TONE_SEGMENT + ((b : ℚ) - 1) * BASE_SEGMENT) := by
      ring
    rw [harg]
    refine normalize_eq_self ?_ ?_
    · have hGSpos : (0:ℚ) ≤ GATE_SEGMENT := by rw [hGS]; norm_num
      nlinarith
    · rw [hGS, hLS, hCS, hTS, hBS] at *
      nlinarith
  have hcell := compute_data_cell p.2 l c t b hl1 hl6 hc1 hc6 ht1 ht6 hb1 hb5
  rw [hangle, hcell]
  refine ⟨⟨rfl, rfl, rfl, rfl, rfl, hlookup p hp⟩, compute_data_percentages⟩

/-- Witness for C6 at Gate 1 (wheel index 50), Line 2, Color 3, Tone 4,
Base 5. -/
theorem compute_data_roundtrip_witness :
    (compute_data (compute_angle (cell_boundary_longitude 50 2 3 4 5))).line = 2 ∧
    get_by_wheel_index
      (compute_data (compute_angle (cell_boundary_longitude 50 2 3 4 5))).gate_index
      = some 1 := by
  have h := compute_data_roundtrip (1, 50) (by decide) 2 3 4 5 (by decide) (by decide)
    (by decide) (by decide) (by decide) (by decide) (by decide) (by decide)
  exact ⟨h.1.2.1, h.1.2.2.2.2.2⟩

/-- `DESIGN_IMPRINT_DEGREES` (88.0). -/
def DESIGN_IMPRINT_DEGREES : ℚ := 88

/-- `AVG_SUN_SPEED = (0.95 + 1.02) / 2`. -/
def AVG_SUN_SPEED : ℚ := (0.95 + 1.02) / 2

/-- `AVG_DIFF_DAYS = DESIGN_IMPRINT_DEGREES / AVG_SUN_SPEED`. -/
def AVG_DIFF_DAYS : ℚ := DESIGN_IMPRINT_DEGREES / AVG_SUN_SPEED

/-- `MAX_ITERATIONS` of `get_design_datetime`. -/
def MAX_ITERATIONS : Nat := 10

/-- `TOLERANCE_DEGREES = 1 / (60 * 60 * 10_000)` (one 36-millionth of a
degree). -/
def TOLERANCE_DEGREES : ℚ := 1 / (60 * 60 * 10000)

/-- The external Swiss Ephemeris oracle (out of scope per the spec): the Sun's
ecliptic longitude and its instantaneous velocity at a Julian-day time. -/
structure Ephemeris where
  lon : ℚ → ℚ
  speed : ℚ → ℚ

/-- What `get_design_datetime` produces, plus instrumentation: the final time
estimate (Julian day), the longitude variable at return, whether the
diagnostic warning was emitted (the `for`-`else` branch), and how many times
the ephemeris was sampled. -/
structure DesignResult where
  jd : ℚ
  longitude : ℚ
  warned : Bool
  samples : Nat
deriving Repr

/-- The signed angular error of `get_design_datetime`:
`diff = (design_lon - longitude + 180) % 360 - 180` (Python float `%` has
floor semantics, modelled exactly by `normalize_degrees` of the shifted
value). -/
def design_diff (design_lon longitude : ℚ) : ℚ :=
  normalize_degrees (design_lon - longitude + 180) - 180

/-- The `for _ in range(MAX_ITERATIONS):` loop of `get_design_datetime`:

```
data, _ = swe.calc_ut(current_jd, ...)
longitude = data[0]; current_speed = data[3]
diff = (design_lon - longitude + 180) % 360 - 180
if abs(diff) < TOLERANCE_DEGREES: break
current_jd += diff / current_speed
else:
    print("Warning: ... did not converge ...")
return julian_to_datetime(current_jd), longitude
```

The fuel argument is the remaining iteration count; the fuel-0 case is the
`for`-`else` branch (loop exhausted), which only warns and still returns the
current estimate and the last sampled longitude.  (If `current_speed` were
zero Python would raise `ZeroDivisionError`; in `ℚ` the step is then zero.
The claims under verification do not depend on the step's value.) -/
def design_loop (e : Ephemeris) (design_lon : ℚ) :
    Nat → ℚ → ℚ → Nat → DesignResult
  | 0, current_jd, last_lon, samples =>
    { jd := current_jd, longitude := last_lon, warned := true, samples := samples }
  | fuel + 1, current_jd, _, samples =>
    let longitude := e.lon current_jd
    let current_speed := e.speed current_jd
    let diff := design_diff design_lon longitude
    if |diff| < TOLERANCE_DEGREES then
      { jd := current_jd, longitude := longitude, warned := false,
        samples := samples + 1 }
    else
      design_loop e design_lon fuel (current_jd + diff / current_speed) longitude
        (samples + 1)

/-- `get_design_datetime(birth_dt)`: compute the target longitude
`normalize(birth_lon - 88)`, seed the estimate at
`birth_jd - AVG_DIFF_DAYS`, and run the Newton-Raphson loop.  (The initial
`last_lon` value 0 is never returned because `MAX_ITERATIONS > 0`.) -/
def get_design_datetime (e : Ephemeris) (birth_jd : ℚ) : DesignResult :=
  let birth_lon := e.lon birth_jd
  let design_lon := normalize_degrees (birth_lon - DESIGN_IMPRINT_DEGREES)
  design_loop e design_lon MAX_ITERATIONS (birth_jd - AVG_DIFF_DAYS) 0 0

/-- The sequence of Newton-Raphson time estimates described by the claim:
`jd_seq 0` is the seed and each next estimate advances by
`diff / speed` at the current one. -/
def jd_seq (e : Ephemeris) (design_lon start : ℚ) : Nat → ℚ
  | 0 => start
  | n + 1 =>
    let jd := jd_seq e design_lon start n
    jd + design_diff design_lon (e.lon jd) / e.speed jd

theorem jd_seq_shift (e : Ephemeris) (design_lon start : ℚ) (n : Nat) :
    jd_seq e design_lon
        (start + design_diff design_lon (e.lon start) / e.speed start) n
      = jd_seq e design_lon start (n + 1) := by
  induction n with
  | zero => rfl
  | succ n ih => rw [jd_seq, ih]; rfl

theorem design_loop_eq (e : Ephemeris) (design_lon : ℚ) :
    ∀ (fuel : Nat) (start last_lon : ℚ) (samples : Nat),
    design_loop e design_lon fuel start last_lon samples
      = match (List.range fuel).find? (fun k =>
          decide (|design_diff design_lon (e.lon (jd_seq e design_lon start k))|
            < TOLERANCE_DEGREES)) with
        | some k =>
          { jd := jd_seq e design_lon start k
            longitude := e.lon (jd_seq e design_lon start k)
            warned := false
            samples := samples + k + 1 }
        | none =>
          { jd := jd_seq e design_lon start fuel
            longitude := if fuel = 0 then last_lon
              else e.lon (jd_seq e design_lon start (fuel - 1))
            warned := true
            samples := samples + fuel } := by
  intro fuel
  induction fuel with
  | zero =>
    intro start last_lon samples
    simp [design_loop, jd_seq]
  | succ fuel ih =>
    intro start last_lon samples
    have hpred : ((fun k => decide (|design_diff design_lon
          (e.lon (jd_seq e design_lon start k))| < TOLERANCE_DEGREES)) ∘ Nat.succ)
        = fun k => decide (|design_diff design_lon
            (e.lon (jd_seq e design_lon
              (start + design_diff design_lon (e.lon start) / e.speed start) k))|
            < TOLERANCE_DEGREES) := by
      funext k
      simp only [Function.comp_apply]
      rw [jd_seq_shift]
    rw [List.range_succ_eq_map]
    by_cases h0 : |design_diff design_lon (e.lon start)| < TOLERANCE_DEGREES
    · rw [List.find?_cons_of_pos _ (by simp only [jd_seq]; exact decide_eq_true h0)]
      simp only [design_loop]
      rw [if_pos h0]
      simp [jd_seq]
    · rw [List.find?_cons_of_neg _ (by simp only [jd_seq, decide_eq_true_iff]; exact h0)]
      simp only [design_loop]
      rw [if_neg h0]
      rw [ih, List.find?_map, hpred]
      rcases hfind : (List.range fuel).find? (fun k => decide (|design_diff design_lon
          (e.lon (jd_seq e design_lon
            (start + design_diff design_lon (e.lon start) / e.speed start) k))|
          < TOLERANCE_DEGREES)) with _ | k
      · rcases fuel with _ | fuel
        · simp [jd_seq, jd_seq_shift]
        · simp [jd_seq_shift, DesignResult.mk.injEq]
          omega
      · simp [jd_seq_shift, DesignResult.mk.injEq]
        omega

/-- C7: `get_design_datetime` samples the ephemeris at most
`MAX_ITERATIONS = 10` times; it returns, without raising, at the first
Newton-Raphson estimate whose wrapped angular error
`((target - longitude + 180) mod 360) - 180` is below 1/36,000,000 of a
degree (`find?` returns the first such index), with `warned = false`; and when
no estimate within the cap converges it sets `warned = true` (the diagnostic
`for`-`else` print) and still returns the last time estimate together with the
last sampled Sun longitude. -/
theorem get_design_datetime_spec (e : Ephemeris) (birth_jd : ℚ) :
    (get_design_datetime e birth_jd).samples ≤ MAX_ITERATIONS ∧
    get_design_datetime e birth_jd
      = match (List.range MAX_ITERATIONS).find? (fun k =>
          decide (|design_diff
              (normalize_degrees (e.lon birth_jd - DESIGN_IMPRINT_DEGREES))
              (e.lon (jd_seq e
                (normalize_degrees (e.lon birth_jd - DESIGN_IMPRINT_DEGREES))
                (birth_jd - AVG_DIFF_DAYS) k))|
            < TOLERANCE_DEGREES)) with
        | some k =>
          { jd := jd_seq e
              (normalize_degrees (e.lon birth_jd - DESIGN_IMPRINT_DEGREES))
              (birth_jd - AVG_DIFF_DAYS) k
            longitude := e.lon (jd_seq e
              (normalize_degrees (e.lon birth_jd - DESIGN_IMPRINT_DEGREES))
              (birth_jd - AVG_DIFF_DAYS) k)
            warned := false
            samples := k + 1 }
        | none =>
          { jd := jd_seq e
              (normalize_degrees (e.lon birth_jd - DESIGN_IMPRINT_DEGREES))
              (birth_jd - AVG_DIFF_DAYS) MAX_ITERATIONS
            longitude := e.lon (jd_seq e
              (normalize_degrees (e.lon birth_jd - DESIGN_IMPRINT_DEGREES))
              (birth_jd - AVG_DIFF_DAYS) (MAX_ITERATIONS - 1))
            warned := true
            samples := MAX_ITERATIONS } := by
  have h := design_loop_eq e
    (normalize_degrees (e.lon birth_jd - DESIGN_IMPRINT_DEGREES))
    MAX_ITERATIONS (birth_jd - AVG_DIFF_DAYS) 0 0
  have hmain : get_design_datetime e birth_jd
      = design_loop e (normalize_degrees (e.lon birth_jd - DESIGN_IMPRINT_DEGREES))
          MAX_ITERATIONS (birth_jd - AVG_DIFF_DAYS) 0 0 := rfl
  rw [hmain, h]
  rcases hf : (List.range MAX_ITERATIONS).find? (fun k =>
      decide (|design_diff
          (normalize_degrees (e.lon birth_jd - DESIGN_IMPRINT_DEGREES))
          (e.lon (jd_seq e
            (normalize_degrees (e.lon birth_jd - DESIGN_IMPRINT_DEGREES))
            (birth_jd - AVG_DIFF_DAYS) k))|
        < TOLERANCE_DEGREES)) with _ | k
  · refine ⟨by simp [MAX_ITERATIONS], ?_⟩
    simp [MAX_ITERATIONS]
  · have hk : k < MAX_ITERATIONS :=
      List.mem_range.mp (List.mem_of_find?_eq_some hf)
    refine ⟨by simp; omega, ?_⟩
    simp [Nat.zero_add]

example : definitions [21, 45] = [[.heart, .throat]] := by decide
example : definitions [10, 57] = [[.g, .splenic]] := by decide
example : definitions [] = [] := by decide
example : definitions [21, 45, 10, 57] = [[.g, .splenic], [.heart, .throat]] := by decide
example : chart_type [10, 57] = .ok .energyProjector := rfl
example : chart_type_spec [10, 57] = .ok .classicProjector := rfl
example : is_connected [21, 45] .throat NON_SACRAL_MOTOR_CENTERS =
    .error tupleNotCallableMsg := rfl
example : is_connected_spec [21, 45] .throat NON_SACRAL_MOTOR_CENTERS = true := by decide
example : definition_type [21, 45, 10, 57] = .ok .simpleSplit := rfl
example : definition_type [4, 63, 3, 60] = .ok .wideSplit := rfl
example : definition_type [21, 45] = .ok .single := rfl

end PyHD
